import Mathlib

/-!
Verification development for the Farkle repository.

The scoring engine (`rules.js`, exported as `calculateScore`,
`hasPossibleMoves`, `isScoringSelection` together with `DEFAULT_RULES`) is
embedded as pure functions on `List Nat` (the multiset of die face values)
and a `Rules` record.  The match state machine (`server.js`, class
`GameState` and the socket handlers) is embedded as pure functions on a
`GameState` structure; randomness (die values and die identifiers) is
supplied through oracle arguments.

JavaScript numbers holding point values are modelled as `Nat` (all
configured values are non-negative integers); JS truthiness of a count
(`counts[v]`) is modelled as `≠ 0`, and the JS `x || y` fallback on a
numeric rule value as `if x ≠ 0 then x else y`.
-/

namespace Farkle

/-- Rule configuration record, mirroring `DEFAULT_RULES` in `rules.js`. -/
structure Rules where
  single1 : Nat
  single5 : Nat
  triple1 : Nat
  triple2 : Nat
  triple3 : Nat
  triple4 : Nat
  triple5 : Nat
  triple6 : Nat
  straight : Nat
  threePairs : Nat
  fourOfAKind : Nat
  fiveOfAKind : Nat
  sixOfAKind : Nat
  sixOnes : Nat
  twoTriplets : Nat
  fullHouseBonus : Nat
  fourStraight : Nat
  fiveStraight : Nat
  enableThreePairs : Bool
  enableTwoTriplets : Bool
  enableFullHouse : Bool
  enableSixOnesInstantWin : Bool
  enable4Straight : Bool
  enable5Straight : Bool
  openingScore : Nat
  winScore : Nat
  threeFarklesPenalty : Nat
  toxicTwos : Bool
  welfareMode : Bool
  highStakes : Bool
  noFarkleFirstRoll : Bool
  deriving Repr, DecidableEq

/-- The default rule configuration (`DEFAULT_RULES` in `rules.js`). -/
def DEFAULT_RULES : Rules where
  single1 := 100
  single5 := 50
  triple1 := 1000
  triple2 := 200
  triple3 := 300
  triple4 := 400
  triple5 := 500
  triple6 := 600
  straight := 1500
  threePairs := 1500
  fourOfAKind := 1000
  fiveOfAKind := 2000
  sixOfAKind := 3000
  sixOnes := 5000
  twoTriplets := 2500
  fullHouseBonus := 250
  fourStraight := 500
  fiveStraight := 1200
  enableThreePairs := true
  enableTwoTriplets := true
  enableFullHouse := false
  enableSixOnesInstantWin := false
  enable4Straight := false
  enable5Straight := false
  openingScore := 0
  winScore := 10000
  threeFarklesPenalty := 1000
  toxicTwos := false
  welfareMode := false
  highStakes := false
  noFarkleFirstRoll := true

/-- The `switch (face)` assigning `tripleValue` in `calculateScore`
(`rules.js` lines 112-119); the JS variable starts at `0` and is left
untouched by the `switch` for a face outside `1..6`. -/
def tripleValue (rules : Rules) (face : Nat) : Nat :=
  if face = 1 then rules.triple1
  else if face = 2 then rules.triple2
  else if face = 3 then rules.triple3
  else if face = 4 then rules.triple4
  else if face = 5 then rules.triple5
  else if face = 6 then rules.triple6
  else 0

/-- One iteration of the per-face accumulation loop of `calculateScore`
(`rules.js` lines 107-212): the amount added to `score` for `face`.

The source's `count >= 3` block is `if (count === 3) {...} else if
(count === 4) {...}` with no further branch, so a count of `5` (or more)
adds nothing.  Inside the `count === 4` branch the source first executes
`score += rules.fourOfAKind || (tripleValue * 2)` (line 126, JS `||` on a
number falls back when the value is `0`) and then *additionally* runs the
face-1 comparison block of lines 194-203, whose own `count === 5` /
`count === 6` arms are unreachable there.  The face-1 comparison uses the
literal constants `1000` and `100` from the source, not the configured
`triple1`/`single1`. -/
def faceScore (rules : Rules) (dice : List Nat) (face : Nat) : Nat :=
  let count := dice.count face
  if count = 0 then 0
  else
    let tv := tripleValue rules face
    if 3 ≤ count then
      if count = 3 then tv
      else if count = 4 then
        (if rules.fourOfAKind ≠ 0 then rules.fourOfAKind else tv * 2) +
        (if face = 1 ∧ rules.fourOfAKind < 1000 + (count - 3) * 100 then
          tv + (count - 3) * rules.single1
        else if count = 4 then rules.fourOfAKind
        else if count = 5 then rules.fiveOfAKind
        else if count = 6 then rules.sixOfAKind
        else tv)
      else 0
    else
      if face = 1 then count * rules.single1
      else if face = 5 then count * rules.single5
      else 0

/-- The function `calculateScore(dice, rules)` from `rules.js`.  `dice.count v` is the JS
`counts[v]` map, `dice.dedup.length` the JS `distinct`
(`Object.keys(counts).length`).  The early-`return` chain of the source
becomes an `if`/`else` cascade; an inner shape test that fails in the
source falls through to the next check exactly as the conjunction of the
outer and inner condition failing does here.  The three-pairs inner check
`Object.values(counts).every(c => c === 2)` (and the two-triplets
`vals[0] === 3 && vals[1] === 3`, under `distinct === 2`) quantify over the
distinct values present, i.e. over `dice.dedup`. -/
def calculateScore (dice : List Nat) (rules : Rules) : Nat :=
  if dice.length = 0 then 0
  else
    let totalDice := dice.length
    let distinct := dice.dedup.length
    if totalDice = 6 ∧ distinct = 6 then rules.straight
    else if dice.count 1 = 6 then rules.sixOnes
    else if dice.count 2 = 6 ∨ dice.count 3 = 6 ∨ dice.count 4 = 6 ∨
        dice.count 5 = 6 ∨ dice.count 6 = 6 then rules.sixOfAKind
    else if rules.enable5Straight ∧ totalDice = 5 ∧ distinct = 5 ∧
        ((dice.count 1 ≠ 0 ∧ dice.count 2 ≠ 0 ∧ dice.count 3 ≠ 0 ∧
          dice.count 4 ≠ 0 ∧ dice.count 5 ≠ 0 ∧ dice.count 6 = 0) ∨
         (dice.count 2 ≠ 0 ∧ dice.count 3 ≠ 0 ∧ dice.count 4 ≠ 0 ∧
          dice.count 5 ≠ 0 ∧ dice.count 6 ≠ 0 ∧ dice.count 1 = 0)) then
      rules.fiveStraight
    else if rules.enable4Straight ∧ totalDice = 4 ∧ distinct = 4 ∧
        ((dice.count 1 ≠ 0 ∧ dice.count 2 ≠ 0 ∧ dice.count 3 ≠ 0 ∧
          dice.count 4 ≠ 0 ∧ dice.count 5 = 0 ∧ dice.count 6 = 0) ∨
         (dice.count 2 ≠ 0 ∧ dice.count 3 ≠ 0 ∧ dice.count 4 ≠ 0 ∧
          dice.count 5 ≠ 0 ∧ dice.count 1 = 0 ∧ dice.count 6 = 0) ∨
         (dice.count 3 ≠ 0 ∧ dice.count 4 ≠ 0 ∧ dice.count 5 ≠ 0 ∧
          dice.count 6 ≠ 0 ∧ dice.count 1 = 0 ∧ dice.count 2 = 0)) then
      rules.fourStraight
    else if rules.enableThreePairs ∧ totalDice = 6 ∧ distinct = 3 ∧
        (∀ v ∈ dice.dedup, dice.count v = 2) then rules.threePairs
    else if rules.enableTwoTriplets ∧ totalDice = 6 ∧ distinct = 2 ∧
        (∀ v ∈ dice.dedup, dice.count v = 3) then rules.twoTriplets
    else
      faceScore rules dice 1 + faceScore rules dice 2 + faceScore rules dice 3 +
      faceScore rules dice 4 + faceScore rules dice 5 + faceScore rules dice 6

/-- The function `hasPossibleMoves(dice, rules)` from `rules.js`.  The triples loop
`for (let i = 1; i <= 6; i++)` is unrolled into a six-way disjunction; JS
truthiness of `counts[v]` becomes `0 < dice.count v`. -/
def hasPossibleMoves (dice : List Nat) (rules : Rules) : Bool :=
  if dice.length = 0 then false
  else if 0 < dice.count 1 ∨ 0 < dice.count 5 then true
  else if 3 ≤ dice.count 1 ∨ 3 ≤ dice.count 2 ∨ 3 ≤ dice.count 3 ∨
      3 ≤ dice.count 4 ∨ 3 ≤ dice.count 5 ∨ 3 ≤ dice.count 6 then true
  else if dice.dedup.length = 6 then true
  else if rules.enableThreePairs ∧ dice.length = 6 ∧
      (∀ v ∈ dice.dedup, dice.count v = 2) then true
  else if rules.enable5Straight ∧ 5 ≤ dice.length ∧
      ((0 < dice.count 1 ∧ 0 < dice.count 2 ∧ 0 < dice.count 3 ∧
        0 < dice.count 4 ∧ 0 < dice.count 5) ∨
       (0 < dice.count 2 ∧ 0 < dice.count 3 ∧ 0 < dice.count 4 ∧
        0 < dice.count 5 ∧ 0 < dice.count 6)) then true
  else if rules.enable4Straight ∧ 4 ≤ dice.length ∧
      ((0 < dice.count 1 ∧ 0 < dice.count 2 ∧ 0 < dice.count 3 ∧ 0 < dice.count 4) ∨
       (0 < dice.count 2 ∧ 0 < dice.count 3 ∧ 0 < dice.count 4 ∧ 0 < dice.count 5) ∨
       (0 < dice.count 3 ∧ 0 < dice.count 4 ∧ 0 < dice.count 5 ∧ 0 < dice.count 6)) then true
  else false

/-- The function `isScoringSelection(dice, rules)` from `rules.js`.  The final per-face
loop (`for face 1..6: if c > 0 { if face 1 or 5 continue; if c < 3 return
false }; return true`) is expressed as the bounded quantification it
computes. -/
def isScoringSelection (dice : List Nat) (rules : Rules) : Bool :=
  if calculateScore dice rules = 0 then false
  else if dice.length = 6 ∧ dice.dedup.length = 6 then true
  else if rules.enableThreePairs ∧ dice.length = 6 ∧
      (∀ v ∈ dice.dedup, dice.count v = 2) then true
  else if rules.enable5Straight ∧ dice.length = 5 ∧ dice.dedup.length = 5 ∧
      (dice.count 6 = 0 ∨ dice.count 1 = 0) then true
  else if rules.enable4Straight ∧ dice.length = 4 ∧ dice.dedup.length = 4 ∧
      ((0 < dice.count 1 ∧ 0 < dice.count 2 ∧ 0 < dice.count 3 ∧ 0 < dice.count 4) ∨
       (0 < dice.count 2 ∧ 0 < dice.count 3 ∧ 0 < dice.count 4 ∧ 0 < dice.count 5) ∨
       (0 < dice.count 3 ∧ 0 < dice.count 4 ∧ 0 < dice.count 5 ∧ 0 < dice.count 6)) then true
  else [1, 2, 3, 4, 5, 6].all fun face =>
    decide (face = 1 ∨ face = 5 ∨ dice.count face = 0 ∨ 3 ≤ dice.count face)

/-! ### Spec-side characterization of a complete scoring selection (C3) -/

/-- Modelled from the claim's words (C3): the whole-set combinations that
are "complete by construction" — the six-way straight, three pairs, two
triplets, and the enabled 4- and 5-straights. -/
def specWholeSetPattern (dice : List Nat) (rules : Rules) : Prop :=
  (dice.length = 6 ∧ dice.dedup.length = 6) ∨
  (rules.enableThreePairs = true ∧ dice.length = 6 ∧ dice.dedup.length = 3 ∧
    ∀ v ∈ dice.dedup, dice.count v = 2) ∨
  (rules.enableTwoTriplets = true ∧ dice.length = 6 ∧ dice.dedup.length = 2 ∧
    ∀ v ∈ dice.dedup, dice.count v = 3) ∨
  (rules.enable4Straight = true ∧ dice.length = 4 ∧
    ((dice.count 1 = 1 ∧ dice.count 2 = 1 ∧ dice.count 3 = 1 ∧ dice.count 4 = 1 ∧
      dice.count 5 = 0 ∧ dice.count 6 = 0) ∨
     (dice.count 2 = 1 ∧ dice.count 3 = 1 ∧ dice.count 4 = 1 ∧ dice.count 5 = 1 ∧
      dice.count 1 = 0 ∧ dice.count 6 = 0) ∨
     (dice.count 3 = 1 ∧ dice.count 4 = 1 ∧ dice.count 5 = 1 ∧ dice.count 6 = 1 ∧
      dice.count 1 = 0 ∧ dice.count 2 = 0))) ∨
  (rules.enable5Straight = true ∧ dice.length = 5 ∧
    ((dice.count 1 = 1 ∧ dice.count 2 = 1 ∧ dice.count 3 = 1 ∧ dice.count 4 = 1 ∧
      dice.count 5 = 1 ∧ dice.count 6 = 0) ∨
     (dice.count 2 = 1 ∧ dice.count 3 = 1 ∧ dice.count 4 = 1 ∧ dice.count 5 = 1 ∧
      dice.count 6 = 1 ∧ dice.count 1 = 0)))

/-- Modelled from the claim's words (C3): the selection scores, and every
die contributes — it is a whole-set pattern, or every face other than 1
and 5 that is present appears at least three times (1s and 5s always
contribute). -/
def specCompleteSelection (dice : List Nat) (rules : Rules) : Prop :=
  0 < calculateScore dice rules ∧
  (specWholeSetPattern dice rules ∨
    ∀ f ∈ [2, 3, 4, 6], dice.count f = 0 ∨ 3 ≤ dice.count f)

/-! ## Match state machine (`server.js`, class `GameState`)

The socket handlers call the class methods with `socket.id` as the player
identity; identities and die identifiers are modelled as `Nat`.  Die
values and identifiers produced by `Math.random()` are supplied through
oracle functions.  The server's scoring calls (`calculateScore(values)`,
`isScoringSelection(values)`, `hasPossibleMoves(rolledValues)`) omit the
rules argument and therefore use `DEFAULT_RULES`.  `server.js` hardcodes
the win threshold `10000` in `checkWinCondition` (it equals
`DEFAULT_RULES.winScore`). -/

inductive GameStatus
  | waiting
  | playing
  | finished
  deriving Repr, DecidableEq

structure Die where
  id : Nat
  value : Nat
  selected : Bool
  deriving Repr, DecidableEq

structure Player where
  id : Nat
  name : String
  score : Nat
  connected : Bool
  deriving Repr, DecidableEq

/-- The field `this.winner`: `null`, a player object, or the string `'tie'`. -/
inductive Winner
  | noWinner
  | player (p : Player)
  | tie
  deriving Repr, DecidableEq

structure GameState where
  roomCode : String
  players : List Player
  currentPlayerIndex : Nat
  roundAccumulatedScore : Nat
  diceCountToRoll : Nat
  currentDice : List Die
  isFinalRound : Bool
  finalRoundTriggeredBy : Option Nat
  gameStatus : GameStatus
  winner : Winner
  deriving Repr, DecidableEq

/-- The `GameState` constructor. -/
def GameState.new (roomCode : String) : GameState where
  roomCode := roomCode
  players := []
  currentPlayerIndex := 0
  roundAccumulatedScore := 0
  diceCountToRoll := 6
  currentDice := []
  isFinalRound := false
  finalRoundTriggeredBy := none
  gameStatus := .waiting
  winner := .noWinner

def defaultPlayer : Player := ⟨0, "", 0, false⟩

/-- The method `getCurrentPlayer()`.  In JS an out-of-range index yields `undefined`
(and the callers' `.id` access would throw); every reachable playing state
has two seated players, so the default value is never produced where the
methods read it. -/
def GameState.getCurrentPlayer (s : GameState) : Player :=
  s.players.getD s.currentPlayerIndex defaultPlayer

/-- The method `addPlayer(id, name)`. -/
def GameState.addPlayer (s : GameState) (id : Nat) (name : String) :
    GameState × Bool :=
  if 2 ≤ s.players.length then (s, false)
  else ({ s with players := s.players ++ [⟨id, name, 0, true⟩] }, true)

/-- The method `resetRound()`. -/
def GameState.resetRound (s : GameState) : GameState :=
  { s with roundAccumulatedScore := 0, diceCountToRoll := 6, currentDice := [] }

/-- The method `start()` (the handler invokes it only when two players are seated). -/
def GameState.start (s : GameState) : GameState :=
  if s.players.length = 2 then
    ({ s with gameStatus := .playing, currentPlayerIndex := 0 }).resetRound
  else s

/-- The method `endGame()`. -/
def GameState.endGame (s : GameState) : GameState :=
  let p1 := s.players.getD 0 defaultPlayer
  let p2 := s.players.getD 1 defaultPlayer
  { s with
    gameStatus := .finished,
    winner :=
      if p2.score < p1.score then .player p1
      else if p1.score < p2.score then .player p2
      else .tie }

/-- The method `nextTurn()`: rotate the seat, reset the round, and finish the match
when the new current seat is the final-round trigger seat (the JS `===`
against a `null` trigger is false, i.e. `some _ = none` here). -/
def GameState.nextTurn (s : GameState) : GameState :=
  let s1 := ({ s with currentPlayerIndex := (s.currentPlayerIndex + 1) % 2 }).resetRound
  if s1.isFinalRound then
    if s1.finalRoundTriggeredBy = some s1.currentPlayerIndex then s1.endGame else s1
  else s1

/-- The method `checkWinCondition()`: `server.js` hardcodes the `10000` threshold. -/
def GameState.checkWinCondition (s : GameState) : GameState :=
  let p := s.players.getD s.currentPlayerIndex defaultPlayer
  if 10000 ≤ p.score ∧ s.isFinalRound = false then
    { s with
      isFinalRound := true,
      finalRoundTriggeredBy := some s.currentPlayerIndex }
  else s

/-- Result of `bank`: the guard failures `return` with no value at all
(`silent`), rule violations return an error object, success returns
`{ success: true }`. -/
inductive BankResult
  | silent
  | err (msg : String)
  | ok
  deriving Repr, DecidableEq

/-- The statement `this.players[this.currentPlayerIndex].score += round` (out-of-range
writes cannot occur in guarded contexts; `List.set` ignores them). -/
def updateScoreAt (ps : List Player) (i : Nat) (amount : Nat) : List Player :=
  ps.set i (let p := ps.getD i defaultPlayer; { p with score := p.score + amount })

/-- The common tail of `bank` (`server.js` lines 195-204): fold the final
selection into the round score, credit the current player, check the win
condition and advance the turn unless the match just finished. -/
def GameState.bankFinish (s : GameState) (scoreToAdd : Nat) :
    GameState × BankResult :=
  let round := s.roundAccumulatedScore + scoreToAdd
  let s1 := { s with
    roundAccumulatedScore := round,
    players := updateScoreAt s.players s.currentPlayerIndex round }
  let s2 := s1.checkWinCondition
  let s3 := if s2.gameStatus ≠ .finished then s2.nextTurn else s2
  (s3, .ok)

/-- The method `bank(playerId)`. -/
def GameState.bank (s : GameState) (playerId : Nat) : GameState × BankResult :=
  if s.gameStatus ≠ .playing then (s, .silent)
  else if s.getCurrentPlayer.id ≠ playerId then (s, .silent)
  else
    let selected := s.currentDice.filter (·.selected)
    let values := selected.map (·.value)
    if 0 < selected.length then
      if isScoringSelection values DEFAULT_RULES then
        s.bankFinish (calculateScore values DEFAULT_RULES)
      else (s, .err "Invalid selection")
    else if 0 < s.currentDice.length ∧ s.roundAccumulatedScore = 0 then
      (s, .err "Cannot bank 0")
    else s.bankFinish 0

inductive RollResult
  | err (msg : String)
  | success (dice : List Die) (farkle : Bool) (roundScore : Nat) (hotDice : Bool)
  deriving Repr, DecidableEq

/-- The common tail of `roll`: generate `diceCountToRoll` fresh dice from
the oracles, replace `currentDice` wholesale, and report the farkle and
hot-dice flags. -/
def GameState.rollDice (s : GameState) (freshIds freshValues : Nat → Nat)
    (scoreFromSelection : Nat) : GameState × RollResult :=
  let newDice := (List.range s.diceCountToRoll).map
    fun i => (⟨freshIds i, freshValues i, false⟩ : Die)
  let s1 := { s with currentDice := newDice }
  let rolledValues := newDice.map (·.value)
  (s1, .success newDice (! hasPossibleMoves rolledValues DEFAULT_RULES)
    s1.roundAccumulatedScore
    (decide (0 < scoreFromSelection) && decide (s1.diceCountToRoll = 6)))

/-- The method `roll(playerId)`. -/
def GameState.roll (s : GameState) (playerId : Nat)
    (freshIds freshValues : Nat → Nat) : GameState × RollResult :=
  if s.gameStatus ≠ .playing then (s, .err "Game not active")
  else if s.getCurrentPlayer.id ≠ playerId then (s, .err "Not your turn")
  else if 0 < s.currentDice.length then
    let selected := s.currentDice.filter (·.selected)
    if selected.length = 0 then (s, .err "Must select dice to re-roll")
    else
      let values := selected.map (·.value)
      if ! isScoringSelection values DEFAULT_RULES then (s, .err "Invalid selection")
      else
        let scoreFromSelection := calculateScore values DEFAULT_RULES
        let remaining := s.currentDice.length - selected.length
        let s1 := { s with
          roundAccumulatedScore := s.roundAccumulatedScore + scoreFromSelection,
          diceCountToRoll := if remaining = 0 then 6 else remaining }
        s1.rollDice freshIds freshValues scoreFromSelection
  else
    let s1 := if s.currentDice.length = 0 then { s with diceCountToRoll := 6 } else s
    s1.rollDice freshIds freshValues 0

/-- JS `find` + in-place mutation: update the first list entry satisfying the
test. -/
def updateFirstBy (test : Player → Bool) (f : Player → Player) :
    List Player → List Player
  | [] => []
  | a :: rest =>
    if test a then f a :: rest else a :: updateFirstBy test f rest

/-- Toggle the first die whose id matches (`find` + flip). -/
def toggleDieFirst : List Die → Nat → List Die
  | [], _ => []
  | d :: rest, dieId =>
    if d.id = dieId then { d with selected := ! d.selected } :: rest
    else d :: toggleDieFirst rest dieId

/-- The method `toggleSelection(playerId, dieId)`: silent no-op unless playing and
current; an unknown die id is silently ignored. -/
def GameState.toggleSelection (s : GameState) (playerId dieId : Nat) : GameState :=
  if s.gameStatus ≠ .playing then s
  else if s.getCurrentPlayer.id ≠ playerId then s
  else { s with currentDice := toggleDieFirst s.currentDice dieId }

/-- The method `farkle()` — the bust resolution triggered by the transport layer after
a farkle roll: discard the round score and advance the turn. -/
def GameState.farkle (s : GameState) : GameState :=
  ({ s with roundAccumulatedScore := 0 }).nextTurn

/-- The `restart` socket handler: gated on `finished`; it does NOT reset
`finalRoundTriggeredBy`. -/
def GameState.restart (s : GameState) : GameState :=
  if s.gameStatus = .finished then
    let s1 := { s with
      gameStatus := .playing,
      players := s.players.map fun (p : Player) => { p with score := 0 },
      currentPlayerIndex := 0 }
    let s2 := s1.resetRound
    { s2 with isFinalRound := false, winner := .noWinner }
  else s

/-- The `join_game` socket handler (`server.js` lines 284-335): name-based
reconnection, takeover of a disconnected seat, or joining an empty seat;
auto-start once two players are seated while waiting. -/
def GameState.joinGame (s : GameState) (pid : Nat) (name : String) : GameState :=
  let autoStart := fun (t : GameState) =>
    if t.players.length = 2 ∧ t.gameStatus = .waiting then t.start else t
  if (s.players.find? fun p => p.name = name).isSome then
    autoStart { s with
      players := updateFirstBy (fun p => p.name = name)
        (fun p => { p with id := pid, connected := true }) s.players }
  else if 2 ≤ s.players.length then
    if (s.players.find? fun p => ! p.connected).isSome then
      autoStart { s with
        players := updateFirstBy (fun p => ! p.connected)
          (fun _p => ⟨pid, name, 0, true⟩) s.players }
    else s
  else
    autoStart (s.addPlayer pid name).1

/-! ### Reachability and the dice-count invariant (C9) -/

/-- One externally triggerable transition of a match: the socket handlers
`join_game`, `roll`, `toggle_die`, `bank`, the delayed farkle resolution,
and `restart`, with arbitrary caller identities and oracle outcomes. -/
inductive Step : GameState → GameState → Prop
  | join {s : GameState} (pid : Nat) (name : String) : Step s (s.joinGame pid name)
  | roll {s : GameState} (pid : Nat) (fI fV : Nat → Nat) :
      Step s (s.roll pid fI fV).1
  | toggle {s : GameState} (pid dieId : Nat) : Step s (s.toggleSelection pid dieId)
  | bank {s : GameState} (pid : Nat) : Step s (s.bank pid).1
  | resolveBust {s : GameState} : Step s s.farkle
  | restart {s : GameState} : Step s s.restart

/-- A state reachable from a freshly created room through the handlers. -/
def Reachable (s : GameState) : Prop :=
  ∃ room, Relation.ReflTransGen Step (GameState.new room) s

/-- The inductive invariant behind C9. -/
def DiceInv (s : GameState) : Prop :=
  1 ≤ s.diceCountToRoll ∧ s.diceCountToRoll ≤ 6 ∧ s.currentDice.length ≤ 6

/-! ### Generic list/multiset helper lemmas -/

lemma nodup_of_dedup_length_eq {l : List Nat} (h : l.dedup.length = l.length) :
    l.Nodup := by
  have h2 := List.Sublist.eq_of_length l.dedup_sublist h
  rw [← h2]
  exact l.nodup_dedup

lemma count_eq_one_of_nodup {l : List Nat} (h : l.Nodup) {a : Nat} (ha : a ∈ l) :
    l.count a = 1 := by
  have h1 := List.nodup_iff_count_le_one.mp h a
  have h2 := List.count_pos_iff.mpr ha
  omega

lemma sum_count_toFinset (l : List Nat) : ∑ a ∈ l.toFinset, l.count a = l.length := by
  have h := Multiset.toFinset_sum_count_eq (l : Multiset Nat)
  simp only [List.toFinset_coe, Multiset.coe_count, Multiset.coe_card] at h
  exact h

lemma length_eq_mul_count_dedup {l : List Nat} {k : Nat}
    (h : ∀ v ∈ l.dedup, l.count v = k) : l.length = k * l.dedup.length := by
  have hsum := sum_count_toFinset l
  have hconst : ∑ a ∈ l.toFinset, l.count a = ∑ _a ∈ l.toFinset, k := by
    refine Finset.sum_congr rfl fun a ha => ?_
    exact h a (List.mem_dedup.mpr (List.mem_toFinset.mp ha))
  rw [hconst, Finset.sum_const, smul_eq_mul, List.card_toFinset, Nat.mul_comm] at hsum
  omega

lemma dedup_length_le_card {l : List Nat} {s : Finset Nat}
    (h : ∀ a ∈ l, a ∈ s) : l.dedup.length ≤ s.card := by
  rw [← List.card_toFinset]
  exact Finset.card_le_card fun a ha => h a (List.mem_toFinset.mp ha)

lemma toFinset_eq_of_card_le {l : List Nat} {s : Finset Nat}
    (hsub : ∀ a ∈ l, a ∈ s) (hcard : s.card ≤ l.dedup.length) : l.toFinset = s := by
  refine Finset.eq_of_subset_of_card_le (fun a ha => hsub a (List.mem_toFinset.mp ha)) ?_
  rw [List.card_toFinset]
  exact hcard

/-! ### Evaluation lemmas for `faceScore` -/

lemma faceScore_of_count_eq_zero {dice : List Nat} {face : Nat} (rules : Rules)
    (h : dice.count face = 0) : faceScore rules dice face = 0 := by
  simp [faceScore, h]

lemma faceScore_of_count_le_two_other {dice : List Nat} {face : Nat} (rules : Rules)
    (h : dice.count face ≤ 2) (h1 : face ≠ 1) (h5 : face ≠ 5) :
    faceScore rules dice face = 0 := by
  unfold faceScore
  rcases Nat.eq_zero_or_pos (dice.count face) with h0 | h0
  · simp [h0]
  · have h3 : ¬ 3 ≤ dice.count face := by omega
    simp [Nat.pos_iff_ne_zero.mp h0, h3, h1, h5]

lemma nodup_of_counts_le_one_faces {dice : List Nat}
    (hf : ∀ f ∈ dice, 1 ≤ f ∧ f ≤ 6)
    (h : ∀ i, 1 ≤ i → i ≤ 6 → dice.count i ≤ 1) : dice.Nodup := by
  rw [List.nodup_iff_count_le_one]
  intro a
  by_cases hia : 1 ≤ a ∧ a ≤ 6
  · exact h a hia.1 hia.2
  · have hnm : a ∉ dice := fun hm => hia (hf a hm)
    rw [List.count_eq_zero.mpr hnm]
    omega

/-- Count profile of a nodup 4-die selection whose four listed faces are
all present: each listed face occurs once and nothing else occurs. -/
lemma straight4_counts {dice : List Nat} {a b c d : Nat}
    (hcard : ({a, b, c, d} : Finset Nat).card = 4)
    (hlen : dice.length = 4) (hd : dice.dedup.length = 4)
    (ha : 0 < dice.count a) (hb : 0 < dice.count b)
    (hc : 0 < dice.count c) (hdd : 0 < dice.count d) :
    dice.count a = 1 ∧ dice.count b = 1 ∧ dice.count c = 1 ∧ dice.count d = 1 ∧
    ∀ e, e ∉ ({a, b, c, d} : Finset Nat) → dice.count e = 0 := by
  have hnd : dice.Nodup := nodup_of_dedup_length_eq (by rw [hd, hlen])
  have hsub : ({a, b, c, d} : Finset Nat) ⊆ dice.toFinset := by
    intro e he
    simp only [Finset.mem_insert, Finset.mem_singleton] at he
    rcases he with rfl | rfl | rfl | rfl <;>
      exact List.mem_toFinset.mpr (List.count_pos_iff.mp (by assumption))
  have hfin : ({a, b, c, d} : Finset Nat) = dice.toFinset :=
    Finset.eq_of_subset_of_card_le hsub (by rw [List.card_toFinset, hd, hcard])
  refine ⟨count_eq_one_of_nodup hnd (List.count_pos_iff.mp ha),
    count_eq_one_of_nodup hnd (List.count_pos_iff.mp hb),
    count_eq_one_of_nodup hnd (List.count_pos_iff.mp hc),
    count_eq_one_of_nodup hnd (List.count_pos_iff.mp hdd), ?_⟩
  intro e he
  rw [List.count_eq_zero]
  intro hm
  exact he (hfin ▸ List.mem_toFinset.mpr hm)

/-- Count profile of a 5-die, 5-distinct selection over faces `1..6` with
no `6` (resp. no `1`): it is exactly the 1-5 (resp. 2-6) straight. -/
lemma straight5_counts {dice : List Nat} {lo : Nat}
    (hf : ∀ f ∈ dice, 1 ≤ f ∧ f ≤ 6)
    (hlen : dice.length = 5) (hd : dice.dedup.length = 5)
    (hlo : (lo = 1 ∧ dice.count 6 = 0) ∨ (lo = 2 ∧ dice.count 1 = 0)) :
    ∀ i, lo ≤ i → i ≤ lo + 4 → dice.count i = 1 := by
  have hnd : dice.Nodup := nodup_of_dedup_length_eq (by rw [hd, hlen])
  have hsub : ∀ x ∈ dice, x ∈ Finset.Icc lo (lo + 4) := by
    intro x hx
    have hx16 := hf x hx
    simp only [Finset.mem_Icc]
    rcases hlo with ⟨rfl, hmiss⟩ | ⟨rfl, hmiss⟩
    · have hxm : x ≠ 6 := fun e => by
        rw [e] at hx
        exact absurd (List.count_pos_iff.mpr hx) (by omega)
      omega
    · have hxm : x ≠ 1 := fun e => by
        rw [e] at hx
        exact absurd (List.count_pos_iff.mpr hx) (by omega)
      omega
  have hfin : dice.toFinset = Finset.Icc lo (lo + 4) := by
    refine toFinset_eq_of_card_le hsub ?_
    rw [Nat.card_Icc]
    omega
  intro i hi1 hi2
  refine count_eq_one_of_nodup hnd (List.mem_toFinset.mp ?_)
  rw [hfin]
  simp only [Finset.mem_Icc]
  omega

/-- C1: in the per-face accumulation of `calculateScore`, the claim says a
count of 4 adds the configured `fourOfAKind` value (for face 1, the max of
`fourOfAKind` and `triple1 + single1`) and a count of 5 adds the configured
`fiveOfAKind` value — in particular five 1s score `fiveOfAKind = 2000`.
The code instead adds nothing at all for a count of 5 (its count-5/6 arms
sit unreachably inside the `count === 4` branch), and for a count of 4 it
adds `fourOfAKind` twice over (line 126 plus line 199), so five 1s score
0, four 2s score 2000 instead of the claimed 1000, and four 1s score 2100
instead of the claimed max(1000, 1100) = 1100. -/
theorem c1_per_face_accumulation_bug :
    calculateScore [1, 1, 1, 1, 1] DEFAULT_RULES = 0 ∧
    calculateScore [5, 5, 5, 5, 5] DEFAULT_RULES = 0 ∧
    DEFAULT_RULES.fiveOfAKind = 2000 ∧
    calculateScore [2, 2, 2, 2] DEFAULT_RULES = 2000 ∧
    DEFAULT_RULES.fourOfAKind = 1000 ∧
    calculateScore [1, 1, 1, 1] DEFAULT_RULES = 2100 ∧
    DEFAULT_RULES.triple1 + DEFAULT_RULES.single1 = 1100 := by
  refine ⟨?_, ?_, rfl, ?_, rfl, ?_, rfl⟩ <;> decide

/-! ### Evaluation lemmas for `calculateScore` on small selections -/

lemma calculateScore_one (rules : Rules) : calculateScore [1] rules = rules.single1 := by
  simp [calculateScore, faceScore, tripleValue]

lemma calculateScore_five (rules : Rules) : calculateScore [5] rules = rules.single5 := by
  simp [calculateScore, faceScore, tripleValue]

lemma calculateScore_triple2 (rules : Rules) :
    calculateScore [2, 2, 2] rules = rules.triple2 := by
  simp [calculateScore, faceScore, tripleValue]

lemma calculateScore_triple3 (rules : Rules) :
    calculateScore [3, 3, 3] rules = rules.triple3 := by
  simp [calculateScore, faceScore, tripleValue]

lemma calculateScore_triple4 (rules : Rules) :
    calculateScore [4, 4, 4] rules = rules.triple4 := by
  simp [calculateScore, faceScore, tripleValue]

lemma calculateScore_triple6 (rules : Rules) :
    calculateScore [6, 6, 6] rules = rules.triple6 := by
  simp [calculateScore, faceScore, tripleValue]

/-- A six-die selection in which every present face occurs exactly twice
scores the three-pairs value (when that combination is enabled). -/
lemma calculateScore_threePairs {dice : List Nat} (rules : Rules)
    (hen : rules.enableThreePairs = true) (hlen : dice.length = 6)
    (hcnt : ∀ v ∈ dice.dedup, dice.count v = 2) :
    calculateScore dice rules = rules.threePairs := by
  have hd3 : dice.dedup.length = 3 := by
    have := length_eq_mul_count_dedup hcnt
    omega
  have hcnt' : ∀ v, dice.count v = 0 ∨ dice.count v = 2 := by
    intro v
    by_cases hm : v ∈ dice
    · exact Or.inr (hcnt v (List.mem_dedup.mpr hm))
    · exact Or.inl (List.count_eq_zero.mpr hm)
  simp only [calculateScore]
  split_ifs with g1 g2 g3 g4 g5 g6 g7 g8
  · omega
  · exfalso
    omega
  · exfalso
    have := hcnt' 1
    omega
  · exfalso
    rcases g4 with h | h | h | h | h <;>
      [have := hcnt' 2; have := hcnt' 3; have := hcnt' 4; have := hcnt' 5;
        have := hcnt' 6] <;> omega
  · exfalso
    omega
  · exfalso
    omega
  · rfl
  · exact absurd ⟨hen, hlen, hd3, hcnt⟩ g7
  · exact absurd ⟨hen, hlen, hd3, hcnt⟩ g7

/-! ### Characterization of `hasPossibleMoves` -/

lemma hasPossibleMoves_iff (dice : List Nat) (rules : Rules) :
    hasPossibleMoves dice rules = true ↔
      dice.length ≠ 0 ∧
      ((0 < dice.count 1 ∨ 0 < dice.count 5) ∨
       (3 ≤ dice.count 1 ∨ 3 ≤ dice.count 2 ∨ 3 ≤ dice.count 3 ∨
        3 ≤ dice.count 4 ∨ 3 ≤ dice.count 5 ∨ 3 ≤ dice.count 6) ∨
       dice.dedup.length = 6 ∨
       (rules.enableThreePairs = true ∧ dice.length = 6 ∧
        ∀ v ∈ dice.dedup, dice.count v = 2) ∨
       (rules.enable5Straight = true ∧ 5 ≤ dice.length ∧
        ((0 < dice.count 1 ∧ 0 < dice.count 2 ∧ 0 < dice.count 3 ∧
          0 < dice.count 4 ∧ 0 < dice.count 5) ∨
         (0 < dice.count 2 ∧ 0 < dice.count 3 ∧ 0 < dice.count 4 ∧
          0 < dice.count 5 ∧ 0 < dice.count 6))) ∨
       (rules.enable4Straight = true ∧ 4 ≤ dice.length ∧
        ((0 < dice.count 1 ∧ 0 < dice.count 2 ∧ 0 < dice.count 3 ∧ 0 < dice.count 4) ∨
         (0 < dice.count 2 ∧ 0 < dice.count 3 ∧ 0 < dice.count 4 ∧ 0 < dice.count 5) ∨
         (0 < dice.count 3 ∧ 0 < dice.count 4 ∧ 0 < dice.count 5 ∧ 0 < dice.count 6)))) := by
  unfold hasPossibleMoves
  split_ifs with g1 g2 g3 g4 g5 g6 g7
  · simp [g1]
  · exact iff_of_true rfl ⟨g1, Or.inl g2⟩
  · exact iff_of_true rfl ⟨g1, Or.inr (Or.inl g3)⟩
  · exact iff_of_true rfl ⟨g1, Or.inr (Or.inr (Or.inl g4))⟩
  · exact iff_of_true rfl ⟨g1, Or.inr (Or.inr (Or.inr (Or.inl g5)))⟩
  · exact iff_of_true rfl ⟨g1, Or.inr (Or.inr (Or.inr (Or.inr (Or.inl g6))))⟩
  · exact iff_of_true rfl ⟨g1, Or.inr (Or.inr (Or.inr (Or.inr (Or.inr g7))))⟩
  · constructor
    · intro h
      simp at h
    · rintro ⟨hne, h | h | h | h | h | h⟩
      · exact absurd h g2
      · exact absurd h g3
      · exact absurd h g4
      · exact absurd h g5
      · exact absurd h g6
      · exact absurd h g7

/-! ### Sub-multiset helpers -/

lemma submultiset_single {x : Nat} {dice : List Nat} (h : 0 < dice.count x) :
    ∀ f, List.count f [x] ≤ dice.count f := by
  intro f
  rw [List.count_singleton']
  by_cases hfx : x = f
  · subst hfx
    simpa using h
  · simp [hfx]

lemma count_triple_list (x f : Nat) :
    List.count f [x, x, x] = if x = f then 3 else 0 := by
  by_cases h : x = f <;> simp [List.count_cons, h]

lemma submultiset_triple {x : Nat} {dice : List Nat} (h : 3 ≤ dice.count x) :
    ∀ f, List.count f [x, x, x] ≤ dice.count f := by
  intro f
  rw [count_triple_list]
  by_cases hfx : x = f
  · subst hfx
    simpa using h
  · simp [hfx]

/-- A non-empty sub-multiset of the singleton `[x]` is `[x]` itself. -/
lemma submultiset_singleton_eq {x : Nat} {s : List Nat} (hne : s ≠ [])
    (hsub : ∀ f, s.count f ≤ List.count f [x]) : s = [x] := by
  have hx : ∀ a ∈ s, a = x := by
    intro a ha
    have h1 : 0 < s.count a := List.count_pos_iff.mpr ha
    have h2 := hsub a
    by_contra hne2
    have h0 : List.count a [x] = 0 := by
      rw [List.count_eq_zero]
      simp only [List.mem_singleton]
      exact hne2
    omega
  have hrep : s = List.replicate s.length x := List.eq_replicate_of_mem hx
  have hcx : s.count x ≤ 1 := by
    have := hsub x
    simpa using this
  have hlx : s.count x = s.length := by
    conv_lhs => rw [hrep]
    simp
  have hpos : 0 < s.length := List.length_pos.mpr hne
  have hlen1 : s.length = 1 := by omega
  rw [hrep, hlen1]
  rfl

/-- A sub-multiset at least as long as its ambient list is count-equal to
it (and in particular has the same length). -/
lemma submultiset_eq_of_length {s dice : List Nat}
    (hsub : ∀ f, s.count f ≤ dice.count f) (hlen : dice.length ≤ s.length) :
    dice.length = s.length ∧ ∀ f, s.count f = dice.count f := by
  have hle : (s : Multiset Nat) ≤ (dice : Multiset Nat) := by
    rw [Multiset.le_iff_count]
    intro a
    simpa using hsub a
  have heq : (s : Multiset Nat) = (dice : Multiset Nat) :=
    Multiset.eq_of_le_of_card_le hle (by simpa using hlen)
  constructor
  · have := congrArg Multiset.card heq
    simp only [Multiset.coe_card] at this
    omega
  · intro f
    have := congrArg (Multiset.count f) heq
    simpa using this

/-- A selection with no 1s or 5s, every count at most 2, faces drawn from
`{2,3,4,6}`, and not forming an enabled three-pairs set, scores zero. -/
lemma calculateScore_eq_zero_of_junk {s : List Nat} (rules : Rules)
    (h1 : s.count 1 = 0) (h5 : s.count 5 = 0)
    (hle : ∀ f, s.count f ≤ 2)
    (hfaces : ∀ a ∈ s, a = 2 ∨ a = 3 ∨ a = 4 ∨ a = 6)
    (hnp : ¬(rules.enableThreePairs = true ∧ s.length = 6 ∧
      ∀ v ∈ s.dedup, s.count v = 2)) :
    calculateScore s rules = 0 := by
  simp only [calculateScore]
  split_ifs with g1 g2 g3 g4 g5 g6 g7 g8
  · rfl
  · exfalso
    have hcard : s.dedup.length ≤ 4 := by
      refine dedup_length_le_card (s := ({2, 3, 4, 6} : Finset Nat)) ?_
      intro a ha
      have := hfaces a ha
      simp only [Finset.mem_insert, Finset.mem_singleton]
      tauto
    omega
  · exfalso
    omega
  · exfalso
    rcases g4 with h | h | h | h | h <;>
      [have := hle 2; have := hle 3; have := hle 4; have := hle 5;
        have := hle 6] <;> omega
  · exfalso
    obtain ⟨-, -, -, hsh⟩ := g5
    rcases hsh with ⟨c1, -⟩ | ⟨-, -, -, c5, -⟩ <;> omega
  · exfalso
    obtain ⟨-, -, -, hsh⟩ := g6
    rcases hsh with ⟨c1, -⟩ | ⟨-, -, -, c5, -, -⟩ | ⟨-, -, c5, -⟩ <;> omega
  · exact absurd ⟨g7.1, g7.2.1, g7.2.2.2⟩ hnp
  · exfalso
    obtain ⟨-, hlen6, -, hcnt⟩ := g8
    have hpos : 0 < s.length := by omega
    obtain ⟨a, ha⟩ := List.exists_mem_of_length_pos hpos
    have h3 := hcnt a (List.mem_dedup.mpr ha)
    have := hle a
    omega
  · rw [faceScore_of_count_eq_zero rules h1, faceScore_of_count_eq_zero rules h5,
      faceScore_of_count_le_two_other rules (hle 2) (by decide) (by decide),
      faceScore_of_count_le_two_other rules (hle 3) (by decide) (by decide),
      faceScore_of_count_le_two_other rules (hle 4) (by decide) (by decide),
      faceScore_of_count_le_two_other rules (hle 6) (by decide) (by decide)]

/-- C3: `isScoringSelection` returns `true` exactly when the selection
scores and every die contributes: whole-set patterns are complete by
construction, 1s and 5s always contribute, and any other face present must
appear at least three times; in particular `[1,2,2,2]` is complete while
`[2,2]` and `[3]` are not. -/
theorem c3_complete_selection_characterization :
    (∀ (rules : Rules) (dice : List Nat), (∀ f ∈ dice, 1 ≤ f ∧ f ≤ 6) →
      (isScoringSelection dice rules = true ↔ specCompleteSelection dice rules)) ∧
    isScoringSelection [1, 2, 2, 2] DEFAULT_RULES = true ∧
    isScoringSelection [2, 2] DEFAULT_RULES = false ∧
    isScoringSelection [3] DEFAULT_RULES = false := by
  refine ⟨?_, by decide, by decide, by decide⟩
  intro rules dice hf
  unfold isScoringSelection
  split_ifs with h1 h2 h3 h4 h5
  · -- the selection does not score at all
    constructor
    · intro h
      simp at h
    · rintro ⟨hs, -⟩
      exfalso
      omega
  · -- six-way straight
    constructor
    · intro _
      exact ⟨Nat.pos_of_ne_zero h1, Or.inl (Or.inl h2)⟩
    · intro _
      rfl
  · -- three pairs
    obtain ⟨hen, hlen, hcnt⟩ := h3
    have hd3 : dice.dedup.length = 3 := by
      have := length_eq_mul_count_dedup hcnt
      omega
    constructor
    · intro _
      exact ⟨Nat.pos_of_ne_zero h1, Or.inl (Or.inr (Or.inl ⟨hen, hlen, hd3, hcnt⟩))⟩
    · intro _
      rfl
  · -- enabled five-straight
    obtain ⟨hen, hlen, hd5, hmiss⟩ := h4
    constructor
    · intro _
      refine ⟨Nat.pos_of_ne_zero h1, Or.inl (Or.inr (Or.inr (Or.inr (Or.inr
        ⟨hen, hlen, ?_⟩))))⟩
      rcases hmiss with h6 | h1c
      · have hc := straight5_counts hf hlen hd5 (Or.inl ⟨rfl, h6⟩)
        exact Or.inl ⟨hc 1 (by omega) (by omega), hc 2 (by omega) (by omega),
          hc 3 (by omega) (by omega), hc 4 (by omega) (by omega),
          hc 5 (by omega) (by omega), h6⟩
      · have hc := straight5_counts hf hlen hd5 (Or.inr ⟨rfl, h1c⟩)
        exact Or.inr ⟨hc 2 (by omega) (by omega), hc 3 (by omega) (by omega),
          hc 4 (by omega) (by omega), hc 5 (by omega) (by omega),
          hc 6 (by omega) (by omega), h1c⟩
    · intro _
      rfl
  · -- enabled four-straight
    obtain ⟨hen, hlen, hd4, hsh⟩ := h5
    constructor
    · intro _
      refine ⟨Nat.pos_of_ne_zero h1, Or.inl (Or.inr (Or.inr (Or.inr (Or.inl
        ⟨hen, hlen, ?_⟩))))⟩
      rcases hsh with ⟨p1, p2, p3, p4⟩ | ⟨p2, p3, p4, p5⟩ | ⟨p3, p4, p5, p6⟩
      · obtain ⟨q1, q2, q3, q4, hz⟩ :=
          straight4_counts (a := 1) (b := 2) (c := 3) (d := 4) (by decide)
            hlen hd4 p1 p2 p3 p4
        exact Or.inl ⟨q1, q2, q3, q4, hz 5 (by decide), hz 6 (by decide)⟩
      · obtain ⟨q2, q3, q4, q5, hz⟩ :=
          straight4_counts (a := 2) (b := 3) (c := 4) (d := 5) (by decide)
            hlen hd4 p2 p3 p4 p5
        exact Or.inr (Or.inl ⟨q2, q3, q4, q5, hz 1 (by decide), hz 6 (by decide)⟩)
      · obtain ⟨q3, q4, q5, q6, hz⟩ :=
          straight4_counts (a := 3) (b := 4) (c := 5) (d := 6) (by decide)
            hlen hd4 p3 p4 p5 p6
        exact Or.inr (Or.inr ⟨q3, q4, q5, q6, hz 1 (by decide), hz 2 (by decide)⟩)
    · intro _
      rfl
  · -- fall-through to the per-face completeness loop
    rw [List.all_eq_true]
    constructor
    · intro hall
      refine ⟨Nat.pos_of_ne_zero h1, Or.inr ?_⟩
      intro f hfm
      have hfall : ∀ g, g ∈ ([1, 2, 3, 4, 5, 6] : List Nat) →
          (g = 1 ∨ g = 5 ∨ dice.count g = 0 ∨ 3 ≤ dice.count g) := by
        intro g hg
        exact of_decide_eq_true (hall g hg)
      simp only [List.mem_cons, List.not_mem_nil, or_false] at hfm
      rcases hfm with rfl | rfl | rfl | rfl
      · rcases hfall 2 (by decide) with h | h | h | h
        · omega
        · omega
        · exact Or.inl h
        · exact Or.inr h
      · rcases hfall 3 (by decide) with h | h | h | h
        · omega
        · omega
        · exact Or.inl h
        · exact Or.inr h
      · rcases hfall 4 (by decide) with h | h | h | h
        · omega
        · omega
        · exact Or.inl h
        · exact Or.inr h
      · rcases hfall 6 (by decide) with h | h | h | h
        · omega
        · omega
        · exact Or.inl h
        · exact Or.inr h
    · rintro ⟨hs, hpat | hall⟩
      · -- a whole-set pattern, yet none of the early-accept branches fired:
        -- only the two-triplets pattern is possible, and it passes the loop
        rcases hpat with p | p | p | p | p
        · exact absurd p h2
        · exact absurd ⟨p.1, p.2.1, p.2.2.2⟩ h3
        · -- two triplets: every present face has count 3
          obtain ⟨-, -, -, hcnt⟩ := p
          intro x hx
          refine decide_eq_true ?_
          by_cases hm : x ∈ dice
          · exact Or.inr (Or.inr (Or.inr
              (le_of_eq (hcnt x (List.mem_dedup.mpr hm)).symm)))
          · exact Or.inr (Or.inr (Or.inl (List.count_eq_zero.mpr hm)))
        · -- four-straight pattern contradicts the failed early branch
          exfalso
          obtain ⟨hen, hlen, hsh⟩ := p
          apply h5
          have hnd : dice.Nodup := by
            refine nodup_of_counts_le_one_faces hf ?_
            intro i hi1 hi6
            interval_cases i <;> rcases hsh with ⟨c1, c2, c3, c4, c5, c6⟩ |
              ⟨c1, c2, c3, c4, c5, c6⟩ | ⟨c1, c2, c3, c4, c5, c6⟩ <;> omega
          have hd4 : dice.dedup.length = 4 := by
            rw [List.dedup_eq_self.mpr hnd, hlen]
          refine ⟨hen, hlen, hd4, ?_⟩
          rcases hsh with ⟨c1, c2, c3, c4, c5, c6⟩ | ⟨c1, c2, c3, c4, c5, c6⟩ |
            ⟨c1, c2, c3, c4, c5, c6⟩
          · exact Or.inl ⟨by omega, by omega, by omega, by omega⟩
          · exact Or.inr (Or.inl ⟨by omega, by omega, by omega, by omega⟩)
          · exact Or.inr (Or.inr ⟨by omega, by omega, by omega, by omega⟩)
        · -- five-straight pattern contradicts the failed early branch
          exfalso
          obtain ⟨hen, hlen, hsh⟩ := p
          apply h4
          have hnd : dice.Nodup := by
            refine nodup_of_counts_le_one_faces hf ?_
            intro i hi1 hi6
            interval_cases i <;> rcases hsh with ⟨c1, c2, c3, c4, c5, c6⟩ |
              ⟨c1, c2, c3, c4, c5, c6⟩ <;> omega
          have hd5 : dice.dedup.length = 5 := by
            rw [List.dedup_eq_self.mpr hnd, hlen]
          refine ⟨hen, hlen, hd5, ?_⟩
          rcases hsh with ⟨c1, c2, c3, c4, c5, c6⟩ | ⟨c1, c2, c3, c4, c5, c6⟩
          · exact Or.inl c6
          · exact Or.inr c6
      · -- the per-face condition itself
        intro x hx
        refine decide_eq_true ?_
        simp only [List.mem_cons, List.not_mem_nil, or_false] at hx
        rcases hx with rfl | rfl | rfl | rfl | rfl | rfl
        · exact Or.inl rfl
        · exact Or.inr (Or.inr (hall 2 (by decide)))
        · exact Or.inr (Or.inr (hall 3 (by decide)))
        · exact Or.inr (Or.inr (hall 4 (by decide)))
        · exact Or.inr (Or.inl rfl)
        · exact Or.inr (Or.inr (hall 6 (by decide)))

/-- Witness for `c3_complete_selection_characterization` at `[1,2,2,2]`. -/
theorem c3_complete_selection_characterization_witness :
    (∀ f ∈ ([1, 2, 2, 2] : List Nat), 1 ≤ f ∧ f ≤ 6) ∧
    (isScoringSelection [1, 2, 2, 2] DEFAULT_RULES = true ↔
      specCompleteSelection [1, 2, 2, 2] DEFAULT_RULES) :=
  ⟨by decide, c3_complete_selection_characterization.1 DEFAULT_RULES
    [1, 2, 2, 2] (by decide)⟩

/-- C2 (amended): restricted to rule configurations whose relevant scoring
values are positive, `hasPossibleMoves` returns `true` exactly when some
non-empty sub-multiset of the roll scores positively under
`calculateScore`; and it returns `false` on the empty list. -/
theorem c2_has_any_scoring_move (rules : Rules) (dice : List Nat)
    (hs1 : 0 < rules.single1) (hs5 : 0 < rules.single5)
    (ht2 : 0 < rules.triple2) (ht3 : 0 < rules.triple3)
    (ht4 : 0 < rules.triple4) (ht6 : 0 < rules.triple6)
    (htp : 0 < rules.threePairs)
    (hlen : dice.length ≤ 6) (hfaces : ∀ f ∈ dice, 1 ≤ f ∧ f ≤ 6) :
    (hasPossibleMoves dice rules = true ↔
      ∃ s : List Nat, s ≠ [] ∧ (∀ f, s.count f ≤ dice.count f) ∧
        0 < calculateScore s rules) ∧
    hasPossibleMoves [] rules = false := by
  constructor
  · constructor
    · intro h
      obtain ⟨hne, hcases⟩ := (hasPossibleMoves_iff dice rules).mp h
      have w1 : 0 < dice.count 1 →
          ∃ s, s ≠ [] ∧ (∀ f, s.count f ≤ dice.count f) ∧
            0 < calculateScore s rules := by
        intro hc
        exact ⟨[1], by simp, submultiset_single hc,
          by rw [calculateScore_one]; exact hs1⟩
      have w5 : 0 < dice.count 5 →
          ∃ s, s ≠ [] ∧ (∀ f, s.count f ≤ dice.count f) ∧
            0 < calculateScore s rules := by
        intro hc
        exact ⟨[5], by simp, submultiset_single hc,
          by rw [calculateScore_five]; exact hs5⟩
      rcases hcases with h12 | htr | hd6 | h3p | h5s | h4s
      · rcases h12 with hc | hc
        · exact w1 hc
        · exact w5 hc
      · rcases htr with hc | hc | hc | hc | hc | hc
        · exact w1 (by omega)
        · exact ⟨[2, 2, 2], by simp, submultiset_triple hc,
            by rw [calculateScore_triple2]; exact ht2⟩
        · exact ⟨[3, 3, 3], by simp, submultiset_triple hc,
            by rw [calculateScore_triple3]; exact ht3⟩
        · exact ⟨[4, 4, 4], by simp, submultiset_triple hc,
            by rw [calculateScore_triple4]; exact ht4⟩
        · exact w5 (by omega)
        · exact ⟨[6, 6, 6], by simp, submultiset_triple hc,
            by rw [calculateScore_triple6]; exact ht6⟩
      · -- six distinct faces in at most six dice: the roll contains a 1
        have hfin : dice.toFinset = Finset.Icc 1 6 := by
          refine toFinset_eq_of_card_le ?_ ?_
          · intro a ha
            have := hfaces a ha
            simp only [Finset.mem_Icc]
            omega
          · rw [Nat.card_Icc]
            omega
        have h1m : (1 : Nat) ∈ dice := by
          rw [← List.mem_toFinset, hfin]
          simp [Finset.mem_Icc]
        exact w1 (List.count_pos_iff.mpr h1m)
      · -- enabled three pairs: the whole roll is the witness
        obtain ⟨hen, hlen6, hcnt⟩ := h3p
        refine ⟨dice, ?_, fun f => le_refl _, ?_⟩
        · intro he
          rw [he] at hlen6
          simp at hlen6
        · rw [calculateScore_threePairs rules hen hlen6 hcnt]
          exact htp
      · -- a 5-straight shape always contains a 1 or a 5
        obtain ⟨-, -, hsh⟩ := h5s
        rcases hsh with ⟨hc, -⟩ | ⟨-, -, -, hc, -⟩
        · exact w1 hc
        · exact w5 hc
      · -- a 4-straight shape always contains a 1 or a 5
        obtain ⟨-, -, hsh⟩ := h4s
        rcases hsh with ⟨hc, -⟩ | ⟨-, -, -, hc⟩ | ⟨-, -, hc, -⟩
        · exact w1 hc
        · exact w5 hc
        · exact w5 hc
    · rintro ⟨s, hne, hsub, hpos⟩
      by_contra hmov
      have hfalse : hasPossibleMoves dice rules = false := Bool.eq_false_iff.mpr hmov
      by_cases hlen0 : dice.length = 0
      · obtain ⟨a, ha⟩ := List.exists_mem_of_length_pos (List.length_pos.mpr hne)
        have hd : dice = [] := List.length_eq_zero.mp hlen0
        subst hd
        have h1 : 0 < s.count a := List.count_pos_iff.mpr ha
        have h2 := hsub a
        simp at h2
        omega
      · have hnot : ¬(dice.length ≠ 0 ∧
            ((0 < dice.count 1 ∨ 0 < dice.count 5) ∨
             (3 ≤ dice.count 1 ∨ 3 ≤ dice.count 2 ∨ 3 ≤ dice.count 3 ∨
              3 ≤ dice.count 4 ∨ 3 ≤ dice.count 5 ∨ 3 ≤ dice.count 6) ∨
             dice.dedup.length = 6 ∨
             (rules.enableThreePairs = true ∧ dice.length = 6 ∧
              ∀ v ∈ dice.dedup, dice.count v = 2) ∨
             (rules.enable5Straight = true ∧ 5 ≤ dice.length ∧
              ((0 < dice.count 1 ∧ 0 < dice.count 2 ∧ 0 < dice.count 3 ∧
                0 < dice.count 4 ∧ 0 < dice.count 5) ∨
               (0 < dice.count 2 ∧ 0 < dice.count 3 ∧ 0 < dice.count 4 ∧
                0 < dice.count 5 ∧ 0 < dice.count 6))) ∨
             (rules.enable4Straight = true ∧ 4 ≤ dice.length ∧
              ((0 < dice.count 1 ∧ 0 < dice.count 2 ∧ 0 < dice.count 3 ∧
                0 < dice.count 4) ∨
               (0 < dice.count 2 ∧ 0 < dice.count 3 ∧ 0 < dice.count 4 ∧
                0 < dice.count 5) ∨
               (0 < dice.count 3 ∧ 0 < dice.count 4 ∧ 0 < dice.count 5 ∧
                0 < dice.count 6))))) := by
          intro hc
          have htrue := (hasPossibleMoves_iff dice rules).mpr hc
          rw [htrue] at hfalse
          simp at hfalse
        have hn1 : ¬(0 < dice.count 1 ∨ 0 < dice.count 5) :=
          fun h => hnot ⟨hlen0, Or.inl h⟩
        have hn2 : ¬(3 ≤ dice.count 1 ∨ 3 ≤ dice.count 2 ∨ 3 ≤ dice.count 3 ∨
            3 ≤ dice.count 4 ∨ 3 ≤ dice.count 5 ∨ 3 ≤ dice.count 6) :=
          fun h => hnot ⟨hlen0, Or.inr (Or.inl h)⟩
        have hn4 : ¬(rules.enableThreePairs = true ∧ dice.length = 6 ∧
            ∀ v ∈ dice.dedup, dice.count v = 2) :=
          fun h => hnot ⟨hlen0, Or.inr (Or.inr (Or.inr (Or.inl h)))⟩
        have hc1 : dice.count 1 = 0 := by omega
        have hc5 : dice.count 5 = 0 := by omega
        have hle2 : ∀ f, dice.count f ≤ 2 := by
          intro f
          by_cases hf6 : 1 ≤ f ∧ f ≤ 6
          · obtain ⟨hfa, hfb⟩ := hf6
            interval_cases f <;> omega
          · have hnm : f ∉ dice := fun hm => hf6 ⟨(hfaces f hm).1, (hfaces f hm).2⟩
            rw [List.count_eq_zero.mpr hnm]
            omega
        have hs1c : s.count 1 = 0 := by
          have := hsub 1
          omega
        have hs5c : s.count 5 = 0 := by
          have := hsub 5
          omega
        have hsle : ∀ f, s.count f ≤ 2 := fun f => le_trans (hsub f) (hle2 f)
        have hsfaces : ∀ a ∈ s, a = 2 ∨ a = 3 ∨ a = 4 ∨ a = 6 := by
          intro a ha
          have hposs : 0 < s.count a := List.count_pos_iff.mpr ha
          have hposd : 0 < dice.count a := lt_of_lt_of_le hposs (hsub a)
          have hmem : a ∈ dice := List.count_pos_iff.mp hposd
          have hb := hfaces a hmem
          have hne1 : a ≠ 1 := fun e => by rw [e] at hposd; omega
          have hne5 : a ≠ 5 := fun e => by rw [e] at hposd; omega
          omega
        have hnp : ¬(rules.enableThreePairs = true ∧ s.length = 6 ∧
            ∀ v ∈ s.dedup, s.count v = 2) := by
          rintro ⟨hen, hslen, hscnt⟩
          obtain ⟨hlend, hceq⟩ := submultiset_eq_of_length hsub (by omega)
          apply hn4
          refine ⟨hen, by omega, ?_⟩
          intro v hv
          have hvm : v ∈ dice := List.mem_dedup.mp hv
          have hvc : 0 < dice.count v := List.count_pos_iff.mpr hvm
          have hvq : s.count v = dice.count v := hceq v
          have hvs : v ∈ s := List.count_pos_iff.mp (by omega)
          rw [← hvq]
          exact hscnt v (List.mem_dedup.mpr hvs)
        have hz := calculateScore_eq_zero_of_junk rules hs1c hs5c hsle hsfaces hnp
        omega
  · simp [hasPossibleMoves]

/-- Witness for `c2_has_any_scoring_move` at a concrete roll. -/
theorem c2_has_any_scoring_move_witness :
    (hasPossibleMoves [1, 2, 2] DEFAULT_RULES = true ↔
      ∃ s : List Nat, s ≠ [] ∧ (∀ f, s.count f ≤ List.count f [1, 2, 2]) ∧
        0 < calculateScore s DEFAULT_RULES) ∧
    hasPossibleMoves [] DEFAULT_RULES = false :=
  c2_has_any_scoring_move DEFAULT_RULES [1, 2, 2] (by decide) (by decide)
    (by decide) (by decide) (by decide) (by decide) (by decide) (by decide)
    (by decide)

/-- C2 counterexample: as literally stated ("for every rule
configuration"), the claim fails.  With the single-5 value configured to 0
the roll `[5]` makes `hasPossibleMoves` report a move, yet its only
non-empty sub-multiset `[5]` scores 0. -/
theorem c2_counterexample :
    hasPossibleMoves [5] { DEFAULT_RULES with single5 := 0 } = true ∧
    ∀ s : List Nat, s ≠ [] → (∀ f, s.count f ≤ List.count f [5]) →
      calculateScore s { DEFAULT_RULES with single5 := 0 } = 0 := by
  constructor
  · decide
  · intro s hne hsub
    rw [submultiset_singleton_eq hne hsub, calculateScore_five]

/-! ### Field-preservation lemmas for the state machine -/

lemma updateScoreAt_getD {ps : List Player} {i : Nat} (h : i < ps.length)
    (amt : Nat) :
    (updateScoreAt ps i amt).getD i defaultPlayer =
      { ps.getD i defaultPlayer with
        score := (ps.getD i defaultPlayer).score + amt } := by
  unfold updateScoreAt
  rw [List.getD_eq_getElem?_getD, List.getElem?_set_self']
  rw [List.getElem?_eq_getElem h]
  simp

lemma updateScoreAt_length (ps : List Player) (i : Nat) (amt : Nat) :
    (updateScoreAt ps i amt).length = ps.length := by
  unfold updateScoreAt
  exact List.length_set ps i _

lemma checkWinCondition_fields (s : GameState) :
    (s.checkWinCondition).players = s.players ∧
    (s.checkWinCondition).currentPlayerIndex = s.currentPlayerIndex ∧
    (s.checkWinCondition).roundAccumulatedScore = s.roundAccumulatedScore ∧
    (s.checkWinCondition).diceCountToRoll = s.diceCountToRoll ∧
    (s.checkWinCondition).currentDice = s.currentDice ∧
    (s.checkWinCondition).gameStatus = s.gameStatus ∧
    (s.checkWinCondition).winner = s.winner := by
  unfold GameState.checkWinCondition
  dsimp only
  split_ifs <;> exact ⟨rfl, rfl, rfl, rfl, rfl, rfl, rfl⟩

/-- The method `checkWinCondition` sets the final-round flag exactly when the current
seat's score has reached 10000 and the flag was not yet set. -/
lemma checkWinCondition_flags (s : GameState) :
    ((10000 ≤ (s.players.getD s.currentPlayerIndex defaultPlayer).score ∧
      s.isFinalRound = false) →
      (s.checkWinCondition).isFinalRound = true ∧
      (s.checkWinCondition).finalRoundTriggeredBy = some s.currentPlayerIndex) ∧
    (¬(10000 ≤ (s.players.getD s.currentPlayerIndex defaultPlayer).score ∧
      s.isFinalRound = false) →
      s.checkWinCondition = s) := by
  unfold GameState.checkWinCondition
  dsimp only
  constructor
  · intro h
    rw [if_pos h]
    exact ⟨rfl, rfl⟩
  · intro h
    rw [if_neg h]

lemma endGame_fields (s : GameState) :
    (s.endGame).players = s.players ∧
    (s.endGame).currentPlayerIndex = s.currentPlayerIndex ∧
    (s.endGame).roundAccumulatedScore = s.roundAccumulatedScore ∧
    (s.endGame).diceCountToRoll = s.diceCountToRoll ∧
    (s.endGame).currentDice = s.currentDice ∧
    (s.endGame).isFinalRound = s.isFinalRound ∧
    (s.endGame).finalRoundTriggeredBy = s.finalRoundTriggeredBy ∧
    (s.endGame).gameStatus = .finished :=
  ⟨rfl, rfl, rfl, rfl, rfl, rfl, rfl, rfl⟩

lemma nextTurn_fields (s : GameState) :
    (s.nextTurn).players = s.players ∧
    (s.nextTurn).currentPlayerIndex = (s.currentPlayerIndex + 1) % 2 ∧
    (s.nextTurn).roundAccumulatedScore = 0 ∧
    (s.nextTurn).diceCountToRoll = 6 ∧
    (s.nextTurn).currentDice = [] ∧
    (s.nextTurn).isFinalRound = s.isFinalRound ∧
    (s.nextTurn).finalRoundTriggeredBy = s.finalRoundTriggeredBy := by
  unfold GameState.nextTurn GameState.resetRound GameState.endGame
  dsimp only
  split_ifs <;> exact ⟨rfl, rfl, rfl, rfl, rfl, rfl, rfl⟩

lemma nextTurn_gameStatus (s : GameState) :
    (s.nextTurn).gameStatus =
      if s.isFinalRound = true ∧
          s.finalRoundTriggeredBy = some ((s.currentPlayerIndex + 1) % 2)
        then GameStatus.finished else s.gameStatus := by
  unfold GameState.nextTurn GameState.resetRound GameState.endGame
  dsimp only
  split_ifs with h1 h2 h3 <;> first | rfl | (exfalso; tauto)

lemma rot_ne (i : Nat) : (i + 1) % 2 ≠ i := by omega

/-- C5 (amended): `restart` succeeds only from `finished`; it resets both
players' totals to 0, seat to 0, clears the round state, clears
`finalRoundActive` and the winner, and sets status to `playing` — but it
leaves `finalRoundTriggerSeat` unchanged (the stale value is inert because
`finalRoundActive` is false). -/
theorem c5_restart_behavior (s : GameState) :
    (s.gameStatus = .finished →
      (s.restart).players = s.players.map (fun p => { p with score := 0 }) ∧
      (s.restart).currentPlayerIndex = 0 ∧
      (s.restart).roundAccumulatedScore = 0 ∧
      (s.restart).diceCountToRoll = 6 ∧
      (s.restart).currentDice = [] ∧
      (s.restart).isFinalRound = false ∧
      (s.restart).gameStatus = .playing ∧
      (s.restart).winner = .noWinner ∧
      (s.restart).finalRoundTriggeredBy = s.finalRoundTriggeredBy) ∧
    (s.gameStatus ≠ .finished → s.restart = s) := by
  constructor
  · intro h
    unfold GameState.restart GameState.resetRound
    rw [if_pos h]
    exact ⟨rfl, rfl, rfl, rfl, rfl, rfl, rfl, rfl, rfl⟩
  · intro h
    unfold GameState.restart
    rw [if_neg h]

/-- Witness for `c5_restart_behavior` on a concrete finished match. -/
theorem c5_restart_behavior_witness :
    let s : GameState := ⟨"T", [⟨10, "alice", 10000, true⟩, ⟨11, "bob", 400, true⟩],
      0, 0, 6, [], true, some 0, .finished, .tie⟩
    (s.restart).players = s.players.map (fun p => { p with score := 0 }) ∧
    (s.restart).currentPlayerIndex = 0 ∧
    (s.restart).roundAccumulatedScore = 0 ∧
    (s.restart).diceCountToRoll = 6 ∧
    (s.restart).currentDice = [] ∧
    (s.restart).isFinalRound = false ∧
    (s.restart).gameStatus = .playing ∧
    (s.restart).winner = .noWinner ∧
    (s.restart).finalRoundTriggeredBy = s.finalRoundTriggeredBy :=
  (c5_restart_behavior _).1 rfl

/-- C5 counterexample: the claim says restart clears *both* final-round
flags; on this finished match the trigger seat survives the restart. -/
theorem c5_restart_counterexample :
    ((⟨"T", [⟨10, "alice", 10000, true⟩, ⟨11, "bob", 400, true⟩],
      0, 0, 6, [], true, some 1, .finished, .tie⟩ : GameState).restart).gameStatus
        = .playing ∧
    ((⟨"T", [⟨10, "alice", 10000, true⟩, ⟨11, "bob", 400, true⟩],
      0, 0, 6, [], true, some 1, .finished, .tie⟩ : GameState).restart).finalRoundTriggeredBy
        = some 1 ∧
    some 1 ≠ (none : Option Nat) := by
  refine ⟨rfl, rfl, by decide⟩

/-- C6 (amended): `bank`'s precondition failures are silent no-ops — the
method returns no value at all (the handler then broadcasts a state
update instead of an error), unlike `roll`, which returns explicit
`Game not active` / `Not your turn` errors; in both cases the state is
unchanged. -/
theorem c6_bank_guards_silent (s : GameState) (pid : Nat)
    (fI fV : Nat → Nat) :
    (s.gameStatus ≠ .playing →
      s.bank pid = (s, .silent) ∧
      s.roll pid fI fV = (s, .err "Game not active")) ∧
    (s.gameStatus = .playing → s.getCurrentPlayer.id ≠ pid →
      s.bank pid = (s, .silent) ∧
      s.roll pid fI fV = (s, .err "Not your turn")) := by
  constructor
  · intro h
    constructor
    · unfold GameState.bank
      rw [if_pos h]
    · unfold GameState.roll
      rw [if_pos h]
  · intro hplay hid
    constructor
    · unfold GameState.bank
      rw [if_neg (by simp [hplay]), if_pos hid]
    · unfold GameState.roll
      rw [if_neg (by simp [hplay]), if_pos hid]

/-- Witness for `c6_bank_guards_silent` on a concrete waiting match. -/
theorem c6_bank_guards_silent_witness :
    let s : GameState := ⟨"T", [⟨10, "alice", 0, true⟩], 0, 0, 6, [], false,
      none, .waiting, .noWinner⟩
    s.bank 10 = (s, .silent) ∧
    s.roll 10 (fun i => i) (fun _ => 1) = (s, .err "Game not active") :=
  (c6_bank_guards_silent _ 10 (fun i => i) (fun _ => 1)).1 (by decide)

/-- C6 counterexample: with the match not active, the claim says `bank`
fails with `GameNotActive` exactly as `roll` does; in fact `bank` returns
no error value at all (the state is unchanged, but the caller gets no
error), while `roll` does return the error. -/
theorem c6_counterexample :
    ((⟨"T", [⟨10, "alice", 0, true⟩, ⟨11, "bob", 0, true⟩], 0, 0, 6, [], false,
      none, .waiting, .noWinner⟩ : GameState).bank 10).2 = BankResult.silent ∧
    BankResult.silent ≠ BankResult.err "Game not active" ∧
    ((⟨"T", [⟨10, "alice", 0, true⟩, ⟨11, "bob", 0, true⟩], 0, 0, 6, [], false,
      none, .waiting, .noWinner⟩ : GameState).roll 10 (fun i => i)
        (fun _ => 1)).2 = RollResult.err "Game not active" ∧
    ((⟨"T", [⟨10, "alice", 0, true⟩, ⟨11, "bob", 0, true⟩], 0, 0, 6, [], false,
      none, .waiting, .noWinner⟩ : GameState).bank 10).1 =
      (⟨"T", [⟨10, "alice", 0, true⟩, ⟨11, "bob", 0, true⟩], 0, 0, 6, [], false,
      none, .waiting, .noWinner⟩ : GameState) := by
  refine ⟨rfl, by simp, rfl, rfl⟩

/-- C8: a re-roll with dice on the table and none selected fails with
`Must select dice to re-roll` and leaves the state — in particular the
dice array, the round score and `diceCountToRoll` — unchanged. -/
theorem c8_must_select_to_reroll (s : GameState) (pid : Nat)
    (fI fV : Nat → Nat)
    (hplay : s.gameStatus = .playing)
    (hid : s.getCurrentPlayer.id = pid)
    (hne : s.currentDice ≠ [])
    (hnosel : ∀ d ∈ s.currentDice, d.selected = false) :
    s.roll pid fI fV = (s, .err "Must select dice to re-roll") ∧
    (s.roll pid fI fV).1.currentDice = s.currentDice ∧
    (s.roll pid fI fV).1.roundAccumulatedScore = s.roundAccumulatedScore ∧
    (s.roll pid fI fV).1.diceCountToRoll = s.diceCountToRoll := by
  have hfil : s.currentDice.filter (·.selected) = [] := by
    rw [List.filter_eq_nil_iff]
    intro d hd
    simp [hnosel d hd]
  have hmain : s.roll pid fI fV = (s, .err "Must select dice to re-roll") := by
    unfold GameState.roll
    rw [if_neg (by simp [hplay]), if_neg (by simp [hid]),
      if_pos (by simp [List.length_pos.mpr hne]), if_pos (by rw [hfil]; rfl)]
  exact ⟨hmain, by rw [hmain], by rw [hmain], by rw [hmain]⟩

/-- Witness for `c8_must_select_to_reroll` on a concrete mid-turn state. -/
theorem c8_must_select_to_reroll_witness :
    let s : GameState := ⟨"T", [⟨10, "alice", 0, true⟩, ⟨11, "bob", 0, true⟩],
      0, 150, 3, [⟨7, 2, false⟩, ⟨8, 3, false⟩, ⟨9, 6, false⟩], false, none,
      .playing, .noWinner⟩
    s.roll 10 (fun i => i) (fun _ => 1) = (s, .err "Must select dice to re-roll") :=
  (c8_must_select_to_reroll
    (⟨"T", [⟨10, "alice", 0, true⟩, ⟨11, "bob", 0, true⟩],
      0, 150, 3, [⟨7, 2, false⟩, ⟨8, 3, false⟩, ⟨9, 6, false⟩], false, none,
      .playing, .noWinner⟩ : GameState) 10 (fun i => i) (fun _ => 1) rfl
    (by decide) (by decide) (by decide)).1

/-! ### Unfolding lemmas for `bank` -/

/-- On the success path `bank` is `bankFinish`: fold the round into the
current player's total, check the win condition, and (the status still
being `playing` after `checkWinCondition`) advance the turn. -/
lemma bankFinish_eq (s : GameState) (n : Nat) (hplay : s.gameStatus = .playing) :
    s.bankFinish n =
      ((({ s with
        roundAccumulatedScore := s.roundAccumulatedScore + n,
        players := updateScoreAt s.players s.currentPlayerIndex
          (s.roundAccumulatedScore + n) } : GameState).checkWinCondition).nextTurn,
        .ok) := by
  unfold GameState.bankFinish
  dsimp only
  rw [if_pos]
  rw [(checkWinCondition_fields _).2.2.2.2.2.1]
  simp [hplay]

lemma bank_eq_bankFinish_zero {s : GameState} {pid : Nat}
    (hplay : s.gameStatus = .playing)
    (hid : s.getCurrentPlayer.id = pid)
    (hfil : s.currentDice.filter (·.selected) = [])
    (hno : ¬(0 < s.currentDice.length ∧ s.roundAccumulatedScore = 0)) :
    s.bank pid = s.bankFinish 0 := by
  unfold GameState.bank
  rw [if_neg (by simp [hplay]), if_neg (by simp [hid])]
  dsimp only
  rw [hfil]
  rw [if_neg (by simp), if_neg hno]

lemma bank_ok_cases {s : GameState} {pid : Nat} (h : (s.bank pid).2 = .ok) :
    ∃ n, s.bank pid = s.bankFinish n := by
  revert h
  unfold GameState.bank
  dsimp only
  split_ifs <;> intro h
  · simp at h
  · simp at h
  · exact ⟨_, rfl⟩
  · simp at h
  · simp at h
  · exact ⟨_, rfl⟩

/-- C7: with the current player calling and no dice selected, `bank` fails
with `Cannot bank 0` when dice are on the table and the round score is 0
(state unchanged), and succeeds with a nonzero carried round score, adding
exactly that score to the banking player's total, advancing the seat, and
resetting the round state. -/
theorem c7_cannot_bank_zero (s : GameState) (pid : Nat)
    (hplay : s.gameStatus = .playing)
    (hlen : s.currentPlayerIndex < s.players.length)
    (hid : s.getCurrentPlayer.id = pid)
    (hnosel : ∀ d ∈ s.currentDice, d.selected = false) :
    (s.currentDice ≠ [] → s.roundAccumulatedScore = 0 →
      s.bank pid = (s, .err "Cannot bank 0")) ∧
    (s.roundAccumulatedScore ≠ 0 →
      (s.bank pid).2 = .ok ∧
      (s.bank pid).1.players.getD s.currentPlayerIndex defaultPlayer =
        { s.players.getD s.currentPlayerIndex defaultPlayer with
          score := (s.players.getD s.currentPlayerIndex defaultPlayer).score +
            s.roundAccumulatedScore } ∧
      (s.bank pid).1.currentPlayerIndex = (s.currentPlayerIndex + 1) % 2 ∧
      (s.bank pid).1.roundAccumulatedScore = 0 ∧
      (s.bank pid).1.currentDice = [] ∧
      (s.bank pid).1.diceCountToRoll = 6) := by
  have hfil : s.currentDice.filter (·.selected) = [] := by
    rw [List.filter_eq_nil_iff]
    intro d hd
    simp [hnosel d hd]
  constructor
  · intro hne hz
    unfold GameState.bank
    rw [if_neg (by simp [hplay]), if_neg (by simp [hid])]
    dsimp only
    rw [hfil]
    rw [if_neg (by simp), if_pos ⟨List.length_pos.mpr hne, hz⟩]
  · intro hr
    have hbank := bank_eq_bankFinish_zero hplay hid hfil (by omega)
    rw [hbank, bankFinish_eq s 0 hplay]
    have hcw := checkWinCondition_fields ({ s with
      roundAccumulatedScore := s.roundAccumulatedScore + 0,
      players := updateScoreAt s.players s.currentPlayerIndex
        (s.roundAccumulatedScore + 0) } : GameState)
    have hnt := nextTurn_fields (({ s with
      roundAccumulatedScore := s.roundAccumulatedScore + 0,
      players := updateScoreAt s.players s.currentPlayerIndex
        (s.roundAccumulatedScore + 0) } : GameState).checkWinCondition)
    refine ⟨rfl, ?_, ?_, hnt.2.2.1, hnt.2.2.2.2.1, hnt.2.2.2.1⟩
    · rw [hnt.1, hcw.1]
      dsimp only
      rw [updateScoreAt_getD hlen]
      simp
    · rw [hnt.2.1, hcw.2.1]

/-- Witness for `c7_cannot_bank_zero` on a concrete mid-turn state. -/
theorem c7_cannot_bank_zero_witness :
    let s : GameState := ⟨"T", [⟨10, "alice", 0, true⟩, ⟨11, "bob", 0, true⟩],
      0, 0, 3, [⟨7, 2, false⟩, ⟨8, 3, false⟩, ⟨9, 6, false⟩], false, none,
      .playing, .noWinner⟩
    s.bank 10 = (s, .err "Cannot bank 0") :=
  ((c7_cannot_bank_zero
    (⟨"T", [⟨10, "alice", 0, true⟩, ⟨11, "bob", 0, true⟩],
      0, 0, 3, [⟨7, 2, false⟩, ⟨8, 3, false⟩, ⟨9, 6, false⟩], false, none,
      .playing, .noWinner⟩ : GameState) 10 rfl (by decide) (by decide)
    (by decide)).1 (by decide) rfl)

/-- C10 (implicit claim): with the match active, the caller current, no
dice on the table and a zero round score, `bank` succeeds — it adds 0 to
the caller's total and flips the seat, so a player can pass a turn
without ever rolling. -/
theorem c10_pass_turn_without_rolling (s : GameState) (pid : Nat)
    (hplay : s.gameStatus = .playing)
    (hlen : s.currentPlayerIndex < s.players.length)
    (hid : s.getCurrentPlayer.id = pid)
    (hdice : s.currentDice = [])
    (hround : s.roundAccumulatedScore = 0) :
    (s.bank pid).2 = .ok ∧
    (s.bank pid).1.players.getD s.currentPlayerIndex defaultPlayer =
      s.players.getD s.currentPlayerIndex defaultPlayer ∧
    (s.bank pid).1.currentPlayerIndex = (s.currentPlayerIndex + 1) % 2 ∧
    (s.bank pid).1.roundAccumulatedScore = 0 := by
  have hfil : s.currentDice.filter (·.selected) = [] := by
    rw [hdice]
    rfl
  have hbank := bank_eq_bankFinish_zero hplay hid hfil
    (by rw [hdice]; simp)
  rw [hbank, bankFinish_eq s 0 hplay]
  have hcw := checkWinCondition_fields ({ s with
    roundAccumulatedScore := s.roundAccumulatedScore + 0,
    players := updateScoreAt s.players s.currentPlayerIndex
      (s.roundAccumulatedScore + 0) } : GameState)
  have hnt := nextTurn_fields (({ s with
    roundAccumulatedScore := s.roundAccumulatedScore + 0,
    players := updateScoreAt s.players s.currentPlayerIndex
      (s.roundAccumulatedScore + 0) } : GameState).checkWinCondition)
  refine ⟨rfl, ?_, ?_, hnt.2.2.1⟩
  · rw [hnt.1, hcw.1]
    dsimp only
    rw [updateScoreAt_getD hlen]
    simp [hround]
  · rw [hnt.2.1, hcw.2.1]

/-- Witness for `c10_pass_turn_without_rolling` on a concrete fresh turn. -/
theorem c10_pass_turn_without_rolling_witness :
    let s : GameState := ⟨"T", [⟨10, "alice", 200, true⟩, ⟨11, "bob", 50, true⟩],
      0, 0, 6, [], false, none, .playing, .noWinner⟩
    (s.bank 10).2 = .ok ∧
    (s.bank 10).1.players.getD s.currentPlayerIndex defaultPlayer =
      s.players.getD s.currentPlayerIndex defaultPlayer ∧
    (s.bank 10).1.currentPlayerIndex = (s.currentPlayerIndex + 1) % 2 ∧
    (s.bank 10).1.roundAccumulatedScore = 0 :=
  c10_pass_turn_without_rolling
    (⟨"T", [⟨10, "alice", 200, true⟩, ⟨11, "bob", 50, true⟩],
      0, 0, 6, [], false, none, .playing, .noWinner⟩ : GameState) 10 rfl
    (by decide) (by decide) rfl rfl

/-! ### Final-round lifecycle lemmas -/

/-- A successful bank that lifts the banking seat to 10000 while the flag
is down raises the flag, records the seat, and leaves the match playing. -/
lemma bankFinish_triggers_final (s : GameState) (n : Nat)
    (hplay : s.gameStatus = .playing)
    (_hlen : s.currentPlayerIndex < s.players.length)
    (hflag : s.isFinalRound = false)
    (hthr : 10000 ≤
      ((s.bankFinish n).1.players.getD s.currentPlayerIndex defaultPlayer).score) :
    (s.bankFinish n).1.isFinalRound = true ∧
    (s.bankFinish n).1.finalRoundTriggeredBy = some s.currentPlayerIndex ∧
    (s.bankFinish n).1.gameStatus = .playing := by
  rw [bankFinish_eq s n hplay] at hthr ⊢
  set s1 : GameState := { s with
    roundAccumulatedScore := s.roundAccumulatedScore + n,
    players := updateScoreAt s.players s.currentPlayerIndex
      (s.roundAccumulatedScore + n) } with hs1
  dsimp only at hthr ⊢
  rw [(nextTurn_fields _).1, (checkWinCondition_fields _).1] at hthr
  have hwf := (checkWinCondition_flags s1).1 ⟨hthr, hflag⟩
  have hidx : (s1.checkWinCondition).currentPlayerIndex = s.currentPlayerIndex :=
    (checkWinCondition_fields s1).2.1
  refine ⟨?_, ?_, ?_⟩
  · rw [(nextTurn_fields _).2.2.2.2.2.1]
    exact hwf.1
  · rw [(nextTurn_fields _).2.2.2.2.2.2]
    exact hwf.2
  · rw [nextTurn_gameStatus]
    rw [if_neg]
    · rw [(checkWinCondition_fields s1).2.2.2.2.2.1]
      exact hplay
    · rintro ⟨-, htr⟩
      rw [hwf.2, hidx] at htr
      exact rot_ne s.currentPlayerIndex (Option.some_injective _ htr).symm

/-- Once the final-round flag is up, a further bank keeps it up and keeps
the recorded trigger seat. -/
lemma bankFinish_preserves_final (s : GameState) (n : Nat)
    (hplay : s.gameStatus = .playing) (hflag : s.isFinalRound = true) :
    (s.bankFinish n).1.isFinalRound = true ∧
    (s.bankFinish n).1.finalRoundTriggeredBy = s.finalRoundTriggeredBy := by
  rw [bankFinish_eq s n hplay]
  set s1 : GameState := { s with
    roundAccumulatedScore := s.roundAccumulatedScore + n,
    players := updateScoreAt s.players s.currentPlayerIndex
      (s.roundAccumulatedScore + n) } with hs1
  dsimp only
  have hnc : s1.checkWinCondition = s1 := by
    refine (checkWinCondition_flags s1).2 ?_
    rintro ⟨-, hf⟩
    rw [show s1.isFinalRound = s.isFinalRound from rfl, hflag] at hf
    simp at hf
  rw [hnc]
  constructor
  · rw [(nextTurn_fields s1).2.2.2.2.2.1]
    exact hflag
  · rw [(nextTurn_fields s1).2.2.2.2.2.2]

/-- When the final round is active and the next seat is the trigger seat,
`nextTurn` ends the game. -/
lemma nextTurn_eq_endGame {s : GameState} (hflag : s.isFinalRound = true)
    (htrig : s.finalRoundTriggeredBy = some ((s.currentPlayerIndex + 1) % 2)) :
    s.nextTurn =
      (({ s with
        currentPlayerIndex := (s.currentPlayerIndex + 1) % 2 }).resetRound).endGame := by
  unfold GameState.nextTurn
  dsimp only
  split_ifs with h1 h2
  · rfl
  · exact absurd htrig h2
  · exact absurd hflag h1

/-- C4: a successful bank that raises the banking seat's total to the
10000 threshold while the flag is down sets `isFinalRound`, records the
banking seat, and does not finish the match; the flag never reverts during
play (roll, toggle, bank, bust resolution) and the trigger seat is never
re-recorded; the match finishes exactly on the turn advance that would
make the trigger seat current again, and then the winner is the strictly
higher scorer, or the tie marker on equal totals. -/
theorem c4_final_round_lifecycle :
    (∀ (s : GameState) (pid : Nat),
      s.gameStatus = .playing →
      s.currentPlayerIndex < s.players.length →
      s.isFinalRound = false →
      (s.bank pid).2 = .ok →
      10000 ≤ ((s.bank pid).1.players.getD s.currentPlayerIndex defaultPlayer).score →
      (s.bank pid).1.isFinalRound = true ∧
      (s.bank pid).1.finalRoundTriggeredBy = some s.currentPlayerIndex ∧
      (s.bank pid).1.gameStatus = .playing) ∧
    (∀ (s : GameState) (pid : Nat) (fI fV : Nat → Nat), s.isFinalRound = true →
      (s.roll pid fI fV).1.isFinalRound = true) ∧
    (∀ (s : GameState) (pid dieId : Nat), s.isFinalRound = true →
      (s.toggleSelection pid dieId).isFinalRound = true) ∧
    (∀ (s : GameState) (pid : Nat), s.isFinalRound = true →
      (s.bank pid).1.isFinalRound = true ∧
      (s.bank pid).1.finalRoundTriggeredBy = s.finalRoundTriggeredBy) ∧
    (∀ s : GameState, s.isFinalRound = true → (s.farkle).isFinalRound = true) ∧
    (∀ s : GameState, s.gameStatus = .playing →
      ((s.nextTurn).gameStatus = .finished ↔
        s.isFinalRound = true ∧
        s.finalRoundTriggeredBy = some ((s.currentPlayerIndex + 1) % 2))) ∧
    (∀ s : GameState, s.gameStatus = .playing → s.isFinalRound = true →
      s.finalRoundTriggeredBy = some ((s.currentPlayerIndex + 1) % 2) →
      (s.nextTurn).gameStatus = .finished ∧
      (s.nextTurn).winner =
        (if (s.players.getD 1 defaultPlayer).score <
            (s.players.getD 0 defaultPlayer).score
          then Winner.player (s.players.getD 0 defaultPlayer)
          else if (s.players.getD 0 defaultPlayer).score <
              (s.players.getD 1 defaultPlayer).score
            then Winner.player (s.players.getD 1 defaultPlayer)
            else Winner.tie)) := by
  refine ⟨?_, ?_, ?_, ?_, ?_, ?_, ?_⟩
  · intro s pid hplay hlen hflag hok hthr
    obtain ⟨n, hbn⟩ := bank_ok_cases hok
    rw [hbn] at hthr ⊢
    exact bankFinish_triggers_final s n hplay hlen hflag hthr
  · intro s pid fI fV h
    unfold GameState.roll GameState.rollDice
    dsimp only
    split_ifs <;> exact h
  · intro s pid dieId h
    unfold GameState.toggleSelection
    split_ifs <;> exact h
  · intro s pid h
    unfold GameState.bank
    dsimp only
    split_ifs with g1 g2 g3 g4 g5
    · exact ⟨h, rfl⟩
    · exact ⟨h, rfl⟩
    · exact bankFinish_preserves_final s _ (not_not.mp g1) h
    · exact ⟨h, rfl⟩
    · exact ⟨h, rfl⟩
    · exact bankFinish_preserves_final s 0 (not_not.mp g1) h
  · intro s h
    unfold GameState.farkle
    rw [(nextTurn_fields _).2.2.2.2.2.1]
    exact h
  · intro s hplay
    rw [nextTurn_gameStatus]
    split_ifs with hc
    · exact iff_of_true rfl hc
    · rw [hplay]
      exact iff_of_false (by simp) hc
  · intro s hplay hflag htrig
    rw [nextTurn_eq_endGame hflag htrig]
    exact ⟨(endGame_fields _).2.2.2.2.2.2.2, rfl⟩

/-- Witness for `c4_final_round_lifecycle`: a concrete bank that crosses
the threshold. -/
theorem c4_final_round_lifecycle_witness :
    let s : GameState := ⟨"T", [⟨10, "alice", 0, true⟩, ⟨11, "bob", 0, true⟩],
      0, 10000, 6, [], false, none, .playing, .noWinner⟩
    (s.bank 10).1.isFinalRound = true ∧
    (s.bank 10).1.finalRoundTriggeredBy = some s.currentPlayerIndex ∧
    (s.bank 10).1.gameStatus = .playing :=
  c4_final_round_lifecycle.1
    (⟨"T", [⟨10, "alice", 0, true⟩, ⟨11, "bob", 0, true⟩],
      0, 10000, 6, [], false, none, .playing, .noWinner⟩ : GameState) 10 rfl
    (by decide) rfl (by decide) (by decide)

lemma toggleDieFirst_length (l : List Die) (i : Nat) :
    (toggleDieFirst l i).length = l.length := by
  induction l with
  | nil => rfl
  | cons d rest ih =>
    unfold toggleDieFirst
    split_ifs <;> simp [ih]

lemma diceInv_joinGame (s : GameState) (pid : Nat) (name : String)
    (h : DiceInv s) : DiceInv (s.joinGame pid name) := by
  obtain ⟨h1, h2, h3⟩ := h
  unfold GameState.joinGame GameState.addPlayer GameState.start GameState.resetRound
  dsimp only
  split_ifs <;> first | exact ⟨h1, h2, h3⟩ | (refine ⟨?_, ?_, ?_⟩ <;> simp)

lemma diceInv_roll (s : GameState) (pid : Nat) (fI fV : Nat → Nat)
    (h : DiceInv s) : DiceInv (s.roll pid fI fV).1 := by
  obtain ⟨h1, h2, h3⟩ := h
  have hsel := List.length_filter_le (fun d => d.selected) s.currentDice
  unfold GameState.roll GameState.rollDice
  dsimp only
  split_ifs with g1 g2 g3 g4 g5 g6 g7 <;> dsimp only
  · exact ⟨h1, h2, h3⟩
  · exact ⟨h1, h2, h3⟩
  · exact ⟨h1, h2, h3⟩
  · exact ⟨h1, h2, h3⟩
  · -- hot dice: the remainder was zero, six fresh dice
    refine ⟨?_, ?_, ?_⟩ <;> simp
  · -- ordinary re-roll: the remainder is between 1 and 5
    refine ⟨?_, ?_, ?_⟩ <;> simp only [List.length_map, List.length_range] <;> omega
  · refine ⟨?_, ?_, ?_⟩ <;> simp
  · exfalso
    omega

lemma diceInv_toggle (s : GameState) (pid dieId : Nat)
    (h : DiceInv s) : DiceInv (s.toggleSelection pid dieId) := by
  obtain ⟨h1, h2, h3⟩ := h
  unfold GameState.toggleSelection
  split_ifs <;>
    first
      | exact ⟨h1, h2, h3⟩
      | exact ⟨h1, h2, by rw [show (toggleDieFirst s.currentDice dieId).length =
          s.currentDice.length from toggleDieFirst_length _ _]; exact h3⟩

lemma diceInv_bank (s : GameState) (pid : Nat)
    (h : DiceInv s) : DiceInv (s.bank pid).1 := by
  obtain ⟨h1, h2, h3⟩ := h
  unfold GameState.bank
  dsimp only
  split_ifs with g1 g2 g3 g4 g5
  · exact ⟨h1, h2, h3⟩
  · exact ⟨h1, h2, h3⟩
  · rw [bankFinish_eq s _ (not_not.mp g1)]
    refine ⟨?_, ?_, ?_⟩
    · rw [(nextTurn_fields _).2.2.2.1]
      omega
    · rw [(nextTurn_fields _).2.2.2.1]
    · rw [(nextTurn_fields _).2.2.2.2.1]
      simp
  · exact ⟨h1, h2, h3⟩
  · exact ⟨h1, h2, h3⟩
  · rw [bankFinish_eq s _ (not_not.mp g1)]
    refine ⟨?_, ?_, ?_⟩
    · rw [(nextTurn_fields _).2.2.2.1]
      omega
    · rw [(nextTurn_fields _).2.2.2.1]
    · rw [(nextTurn_fields _).2.2.2.2.1]
      simp

lemma diceInv_farkle (s : GameState) (_h : DiceInv s) : DiceInv s.farkle := by
  unfold GameState.farkle
  refine ⟨?_, ?_, ?_⟩
  · rw [(nextTurn_fields _).2.2.2.1]
    omega
  · rw [(nextTurn_fields _).2.2.2.1]
  · rw [(nextTurn_fields _).2.2.2.2.1]
    simp

lemma diceInv_restart (s : GameState) (h : DiceInv s) : DiceInv s.restart := by
  obtain ⟨h1, h2, h3⟩ := h
  unfold GameState.restart GameState.resetRound
  dsimp only
  split_ifs <;> first | exact ⟨h1, h2, h3⟩ | (refine ⟨?_, ?_, ?_⟩ <;> simp)

lemma step_preserves_diceInv {s s' : GameState} (hs : Step s s')
    (h : DiceInv s) : DiceInv s' := by
  cases hs with
  | join pid name => exact diceInv_joinGame s pid name h
  | roll pid fI fV => exact diceInv_roll s pid fI fV h
  | toggle pid dieId => exact diceInv_toggle s pid dieId h
  | bank pid => exact diceInv_bank s pid h
  | resolveBust => exact diceInv_farkle s h
  | restart => exact diceInv_restart s h

lemma reachable_diceInv {s : GameState} (h : Reachable s) : DiceInv s := by
  obtain ⟨room, hr⟩ := h
  induction hr with
  | refl => refine ⟨?_, ?_, ?_⟩ <;> simp [GameState.new]
  | tail _hab hbc ih => exact step_preserves_diceInv hbc ih

/-- C9: in every reachable state `diceRemainingToRoll` is in `[1,6]`; a
successful re-roll sets it to exactly (dice on the table − selected dice),
resetting to 6 when the selection consumes every die (hot dice); and every
turn advance resets it to 6. -/
theorem c9_dice_remaining_invariant :
    (∀ s : GameState, Reachable s →
      1 ≤ s.diceCountToRoll ∧ s.diceCountToRoll ≤ 6) ∧
    (∀ (s : GameState) (pid : Nat) (fI fV : Nat → Nat),
      s.gameStatus = .playing → s.getCurrentPlayer.id = pid →
      0 < s.currentDice.length →
      (s.currentDice.filter (·.selected)).length ≠ 0 →
      isScoringSelection ((s.currentDice.filter (·.selected)).map (·.value))
        DEFAULT_RULES = true →
      ((s.currentDice.filter (·.selected)).length < s.currentDice.length →
        (s.roll pid fI fV).1.diceCountToRoll =
          s.currentDice.length - (s.currentDice.filter (·.selected)).length) ∧
      ((s.currentDice.filter (·.selected)).length = s.currentDice.length →
        (s.roll pid fI fV).1.diceCountToRoll = 6)) ∧
    (∀ s : GameState, (s.nextTurn).diceCountToRoll = 6) := by
  refine ⟨?_, ?_, ?_⟩
  · intro s h
    exact ⟨(reachable_diceInv h).1, (reachable_diceInv h).2.1⟩
  · intro s pid fI fV hplay hid hdice hselne hscoring
    unfold GameState.roll GameState.rollDice
    dsimp only
    rw [if_neg (by simp [hplay]), if_neg (by simp [hid]), if_pos hdice,
      if_neg hselne, if_neg (by simp [hscoring])]
    constructor
    · intro hlt
      rw [if_neg (by omega)]
    · intro heq
      rw [if_pos (by omega)]
  · intro s
    exact (nextTurn_fields s).2.2.2.1

/-- Witness for `c9_dice_remaining_invariant` at the initial state and a
concrete re-roll. -/
theorem c9_dice_remaining_invariant_witness :
    (1 ≤ (GameState.new "T").diceCountToRoll ∧
      (GameState.new "T").diceCountToRoll ≤ 6) ∧
    ((⟨"T", [⟨10, "alice", 0, true⟩, ⟨11, "bob", 0, true⟩],
      0, 0, 3, [⟨7, 1, true⟩, ⟨8, 3, false⟩, ⟨9, 6, false⟩], false, none,
      .playing, .noWinner⟩ : GameState).roll 10 (fun i => i)
        (fun _ => 2)).1.diceCountToRoll = 2 :=
  ⟨c9_dice_remaining_invariant.1 (GameState.new "T")
    ⟨"T", Relation.ReflTransGen.refl⟩,
   by
    have h := (c9_dice_remaining_invariant.2.1
      (⟨"T", [⟨10, "alice", 0, true⟩, ⟨11, "bob", 0, true⟩],
        0, 0, 3, [⟨7, 1, true⟩, ⟨8, 3, false⟩, ⟨9, 6, false⟩], false, none,
        .playing, .noWinner⟩ : GameState) 10 (fun i => i) (fun _ => 2) rfl
      (by decide) (by decide) (by decide) (by decide)).1 (by decide)
    exact h.trans (by decide)⟩

end Farkle
